import Mathlib

/-!
# The `synchronize` command of taskwarrior (`src/commands/CmdSync.cpp`)

A shallow embedding of `CmdSync::execute` and `CmdSync::send`.  The global
`context` object is passed explicitly.  The text that the command emits
(`context.footnote`, `context.error`, `context.debug`, the `out` stream) and
the calls it makes on the task database and on the transport are returned as
lists, in the order in which the source produces them.

The counters `upload_count` and `download_count` are C++ `int`s; they are
embedded as unbounded `Int`, started at `0` and incremented by one, which is
what the source does for every payload of fewer than `2^31` lines.
-/

set_option autoImplicit false

namespace CmdSync

/-! ## Strings -/

/-- The character that opens a JSON task record, written `'{'` in the source. -/
def lbrace : Char := Char.ofNat 123

/-- The expression `s[0]` on a `std::string`: the first character, and the
terminating NUL when the string is empty. -/
def firstChar (s : String) : Char :=
  match s.data with
  | [] => Char.ofNat 0
  | c :: _ => c

/-- The call `s.rfind (c)`: the index of the last occurrence of `c`, with
`none` for `std::string::npos`. -/
def rfindChars (c : Char) : List Char → Option Nat
  | [] => none
  | x :: xs =>
    match rfindChars c xs with
    | some i => some (i + 1)
    | none => if x = c then some 0 else none

/-- The call `s.rfind (c)` on a string. -/
def rfind (s : String) (c : Char) : Option Nat := rfindChars c s.data

/-- The pieces of a character sequence between occurrences of the delimiter;
there is always a last piece, which is empty when the sequence ends in the
delimiter. -/
def splitChars (d : Char) : List Char → List (List Char)
  | [] => [[]]
  | c :: cs =>
    if c = d then [] :: splitChars d cs
    else
      match splitChars d cs with
      | [] => [[c]]
      | p :: ps => (c :: p) :: ps

/-- Modelled from the spec: the text helper `split (results, input, delimiter)`,
which is not in the source file.  The payload is "newline-delimited" and the
credential is "delimited by `/`": the input is cut at every occurrence of the
delimiter, the piece after the last delimiter is included, and an empty input
has no piece at all. -/
def split (input : String) (delimiter : Char) : List String :=
  if input.data = [] then [] else (splitChars delimiter input.data).map String.mk

/-! ## Messages, tasks and configuration -/

/-- The localised strings `STRING_CMD_SYNC_*` of `i18n.h`, each with the
arguments that `format` substitutes into it; `raw` is a string that the source
builds itself or receives from the server, and `indent t` is `"  " + t`. -/
inductive Text where
  | STRING_CMD_SYNC_INIT
  | STRING_CMD_SYNC_NO_INIT
  | STRING_CMD_SYNC_NO_SERVER
  | STRING_CMD_SYNC_BAD_CRED
  | STRING_CMD_SYNC_BAD_CERT
  | STRING_CMD_SYNC_BAD_SERVER (dest : String)
  | STRING_CMD_SYNC_PROGRESS (connection : String)
  | STRING_CMD_SYNC_MOD (uuid description : String)
  | STRING_CMD_SYNC_ADD (uuid description : String)
  | STRING_CMD_SYNC_SUCCESS0
  | STRING_CMD_SYNC_SUCCESS1 (upload_count : Int)
  | STRING_CMD_SYNC_SUCCESS2 (download_count : Int)
  | STRING_CMD_SYNC_SUCCESS3 (upload_count download_count : Int)
  | STRING_CMD_SYNC_SUCCESS_NOP
  | STRING_CMD_SYNC_RELOCATE0
  | STRING_CMD_SYNC_RELOCATE1 (new_server : String)
  | STRING_CMD_SYNC_FAIL_ACCOUNT
  | STRING_CMD_SYNC_FAIL_ERROR (code status : String)
  | STRING_CMD_SYNC_FAIL_CONNECT
  | raw (s : String)
  | indent (t : Text)
deriving DecidableEq, Repr

/-- What is written to the `out` stream: a plain string, or a text colorized
with the colour named by a configuration value. -/
inductive OutItem where
  | str (s : String)
  | text (t : Text)
  | colorize (color : String) (t : Text)
deriving DecidableEq, Repr

/-- Modelled from the spec: the configuration store (`context.config`), which
is not in the source file: named string values. -/
abbrev Config := List (String × String)

/-- The call `config.get (name)`: the value, or the empty string. -/
def Config.get (c : Config) (name : String) : String := (c.lookup name).getD ""

/-- The call `config.set (name, value)`. -/
def Config.set (c : Config) (name value : String) : Config :=
  (name, value) :: c.filter (fun kv => kv.1 != name)

/-- Modelled from the spec: a task record, "opaque to this core beyond having
a unique identifier field `uuid` and a `description` field": named string
attributes. -/
structure Task where
  attrs : List (String × String)
deriving DecidableEq, Repr

/-- The call `task.get (name)`: the attribute, or the empty string. -/
def Task.get (t : Task) (name : String) : String := (t.attrs.lookup name).getD ""

/-- Modelled from the spec: a protocol message (`Msg`), "a flat field/value
header followed by a payload section". -/
structure Msg where
  header : List (String × String)
  payload : String
deriving DecidableEq, Repr

/-- The message built by the default constructor. -/
def Msg.empty : Msg := ⟨[], ""⟩

/-- The call `msg.get (name)`. -/
def Msg.get (m : Msg) (name : String) : String := (m.header.lookup name).getD ""

/-- The call `msg.set (name, value)`. -/
def Msg.set (m : Msg) (name value : String) : Msg :=
  { m with header := (name, value) :: m.header.filter (fun kv => kv.1 != name) }

/-- The call `msg.getPayload ()`. -/
def Msg.getPayload (m : Msg) : String := m.payload

/-- The call `msg.setPayload (payload)`. -/
def Msg.setPayload (m : Msg) (payload : String) : Msg := { m with payload := payload }

/-! ## The task database -/

/-- Modelled from the spec: the backlog file object (`context.tdb2.backlog`),
which is not in the source file: "backing storage" (`file`, the contents of
`backlog.data`), an "in-memory line cache" (`lines`, with `added_lines` the
lines appended in memory and not yet written) and an in-memory task cache. -/
structure Backlog where
  file : String
  lines : List String
  added_lines : List String
  tasks : List Task
deriving DecidableEq, Repr

/-- The call `backlog.get_lines ()`. -/
def Backlog.get_lines (b : Backlog) : List String := b.lines

/-- Modelled from the spec: `backlog._file.truncate ()`, "truncate BacklogLog's
backing storage". -/
def Backlog.file_truncate (b : Backlog) : Backlog := { b with file := "" }

/-- Modelled from the spec: `backlog.clear_tasks ()`, "clear its in-memory
task cache". -/
def Backlog.clear_tasks (b : Backlog) : Backlog := { b with tasks := [] }

/-- Modelled from the spec: `backlog.clear_lines ()`, "clear its in-memory
line cache". -/
def Backlog.clear_lines (b : Backlog) : Backlog := { b with lines := [], added_lines := [] }

/-- Modelled from the spec: `backlog.add_line (line)`, "append one line"; the
line reaches the backing storage at the next commit. -/
def Backlog.add_line (b : Backlog) (line : String) : Backlog :=
  { b with lines := b.lines ++ [line], added_lines := b.added_lines ++ [line] }

/-- Modelled from the spec: the backlog part of `tdb2.commit ()`: the appended
lines are written after the contents of the backing storage. -/
def Backlog.commit (b : Backlog) : Backlog :=
  { b with file := b.file ++ String.join b.added_lines, added_lines := [] }

/-- Modelled from the spec: the local task store (`context.tdb2`), which is
not in the source file.  `tasks` is the task collection in memory, "updated
local store (uncommitted)"; `stored` is the durable task store, which changes
only when the mutations are committed "as a single durable transaction". -/
structure TDB2 where
  tasks : List Task
  stored : List Task
  backlog : Backlog
deriving DecidableEq, Repr

/-- The call `tdb2.pending.get_tasks ()`: "the full local task collection". -/
def TDB2.pending_get_tasks (t : TDB2) : List Task := t.tasks

/-- Modelled from the spec: `tdb2.get (uuid, task)`, "`exists(uuid) -> bool`". -/
def TDB2.get (t : TDB2) (uuid : String) : Bool := t.tasks.any (fun x => x.get "uuid" == uuid)

/-- Modelled from the spec: `tdb2.add (task, add_to_backlog)`, "insert as
new"; the backlog "accumulates every local mutation", which a task received
from the server (`add_to_backlog = false`) is not. -/
def TDB2.add (composeJSON : Task → String) (t : TDB2) (task : Task) (add_to_backlog : Bool) :
    TDB2 :=
  { t with
    tasks := t.tasks ++ [task],
    backlog := if add_to_backlog then t.backlog.add_line (composeJSON task ++ "\n")
               else t.backlog }

/-- Modelled from the spec: `tdb2.modify (task, add_to_backlog)`, "modify in
place, not new": the task with the same uuid is overwritten. -/
def TDB2.modify (composeJSON : Task → String) (t : TDB2) (task : Task) (add_to_backlog : Bool) :
    TDB2 :=
  { t with
    tasks := t.tasks.map (fun x => if x.get "uuid" == task.get "uuid" then task else x),
    backlog := if add_to_backlog then t.backlog.add_line (composeJSON task ++ "\n")
               else t.backlog }

/-- Modelled from the spec: `tdb2.commit ()`, "commit all MergeEngine
mutations to the local task store as a single durable transaction". -/
def TDB2.commit (t : TDB2) : TDB2 :=
  { t with stored := t.tasks, backlog := t.backlog.commit }

/-! ## The context -/

/-- The calls of `CmdSync` that change the task database or the configuration,
or that reach the network; `execute` returns them in the order made. -/
inductive Call where
  | tdb2_add (task : Task) (add_to_backlog : Bool)
  | tdb2_modify (task : Task) (add_to_backlog : Bool)
  | backlog_file_truncate
  | backlog_clear_tasks
  | backlog_clear_lines
  | backlog_add_line (line : String)
  | tdb2_commit
  | config_set (name value : String)
  | tls_client (server port certificate bytes : String)
deriving DecidableEq, Repr

/-- What `CmdSync` uses and is declared elsewhere: the text helpers, the
user's answer to a confirmation prompt, the verbosity setting, the JSON codec
of `Task` (the constructor `Task (line)` is taken to build a task from every
line), the codec of `Msg` (whose `parse` may throw), and the TLS round trip
(`TLSClient`: init, connect, send, recv, bye), which yields the incoming bytes
or throws. -/
structure Env where
  closeEnough : String → String → Nat → Bool
  getBoolean : Config → String → Bool
  confirm : Text → Bool
  verbose : String → Bool
  parseTask : String → Task
  composeJSON : Task → String
  serialize : Msg → String
  parse : String → Except String Msg
  tls : String → String → String → String → Except String String

/-- The part of the global `context` that `CmdSync` reads and changes, with
the texts emitted and the calls made so far. -/
structure Context where
  config : Config
  tdb2 : TDB2
  footnotes : List Text
  errors : List Text
  debugs : List Text
  calls : List Call
deriving DecidableEq, Repr

/-- The call `context.footnote (text)`. -/
def Context.footnote (ctx : Context) (t : Text) : Context :=
  { ctx with footnotes := ctx.footnotes ++ [t] }

/-- The call `context.error (text)`. -/
def Context.error (ctx : Context) (t : Text) : Context :=
  { ctx with errors := ctx.errors ++ [t] }

/-- The call `context.debug (text)`. -/
def Context.debug (ctx : Context) (t : Text) : Context :=
  { ctx with debugs := ctx.debugs ++ [t] }

/-- The call `context.tdb2.add (task, add_to_backlog)`. -/
def Context.tdb2_add (env : Env) (ctx : Context) (task : Task) (add_to_backlog : Bool) :
    Context :=
  { ctx with
    tdb2 := ctx.tdb2.add env.composeJSON task add_to_backlog,
    calls := ctx.calls ++ [Call.tdb2_add task add_to_backlog] }

/-- The call `context.tdb2.modify (task, add_to_backlog)`. -/
def Context.tdb2_modify (env : Env) (ctx : Context) (task : Task) (add_to_backlog : Bool) :
    Context :=
  { ctx with
    tdb2 := ctx.tdb2.modify env.composeJSON task add_to_backlog,
    calls := ctx.calls ++ [Call.tdb2_modify task add_to_backlog] }

/-- The call `context.tdb2.backlog._file.truncate ()`. -/
def Context.backlog_file_truncate (ctx : Context) : Context :=
  { ctx with
    tdb2 := { ctx.tdb2 with backlog := ctx.tdb2.backlog.file_truncate },
    calls := ctx.calls ++ [Call.backlog_file_truncate] }

/-- The call `context.tdb2.backlog.clear_tasks ()`. -/
def Context.backlog_clear_tasks (ctx : Context) : Context :=
  { ctx with
    tdb2 := { ctx.tdb2 with backlog := ctx.tdb2.backlog.clear_tasks },
    calls := ctx.calls ++ [Call.backlog_clear_tasks] }

/-- The call `context.tdb2.backlog.clear_lines ()`. -/
def Context.backlog_clear_lines (ctx : Context) : Context :=
  { ctx with
    tdb2 := { ctx.tdb2 with backlog := ctx.tdb2.backlog.clear_lines },
    calls := ctx.calls ++ [Call.backlog_clear_lines] }

/-- The call `context.tdb2.backlog.add_line (line)`. -/
def Context.backlog_add_line (ctx : Context) (line : String) : Context :=
  { ctx with
    tdb2 := { ctx.tdb2 with backlog := ctx.tdb2.backlog.add_line line },
    calls := ctx.calls ++ [Call.backlog_add_line line] }

/-- The call `context.tdb2.commit ()`. -/
def Context.tdb2_commit (ctx : Context) : Context :=
  { ctx with tdb2 := ctx.tdb2.commit, calls := ctx.calls ++ [Call.tdb2_commit] }

/-- The call `context.config.set (name, value)`. -/
def Context.config_set (ctx : Context) (name value : String) : Context :=
  { ctx with
    config := ctx.config.set name value,
    calls := ctx.calls ++ [Call.config_set name value] }

/-! ## `CmdSync::send` -/

/-- The function `CmdSync::send (to, certificate, request, response)`: an
exception (`Except.error`), or the context after the call together with the
parsed response when the function returns `true` and `none` when it returns
`false`. -/
def send (env : Env) (ctx : Context) (dest certificate : String) (request : Msg) :
    Except Text (Option Msg × Context) :=
  match rfind dest ':' with
  | none => .error (Text.STRING_CMD_SYNC_BAD_SERVER dest)
  | some colon =>
    let server := String.mk (dest.data.take colon)
    let port := String.mk (dest.data.drop (colon + 1))
    let bytes := env.serialize request ++ "\n"
    let ctx1 := { ctx with calls := ctx.calls ++ [Call.tls_client server port certificate bytes] }
    match env.tls server port certificate bytes with
    | .error error => .ok (none, ctx1.debug (Text.raw error))
    | .ok incoming =>
      match env.parse incoming with
      | .error error => .ok (none, ctx1.debug (Text.raw error))
      | .ok response => .ok (some response, ctx1)

/-! ## `CmdSync::execute` -/

/-- One round of the loop over the command line words (lines 62-72): the
value of `first_time_init` after the word, or the exception thrown. -/
def initWord (env : Env) (config : Config) (first_time_init : Bool) (word : String) :
    Except Text Bool :=
  if env.closeEnough "initialize" word 4 then
    if !env.getBoolean config "confirmation" || env.confirm Text.STRING_CMD_SYNC_INIT then
      .ok true
    else
      .error Text.STRING_CMD_SYNC_NO_INIT
  else
    .ok first_time_init

/-- The loop over the command line words (lines 59-72). -/
def initWords (env : Env) (config : Config) : Bool → List String → Except Text Bool
  | first_time_init, [] => .ok first_time_init
  | first_time_init, word :: words =>
    match initWord env config first_time_init word with
    | .error e => .error e
    | .ok b => initWords env config b words

/-- The values that the configuration checks of lines 74-92 leave in
`connection`, `credentials` and `certificate`. -/
structure Settings where
  connection : String
  credentials : List String
  certificate : String
deriving DecidableEq, Repr

/-- The configuration checks (lines 74-92): the exception thrown, or the
settings read. -/
def checkConfig (config : Config) : Except Text Settings :=
  let connection := config.get "taskd.server"
  if connection = "" ∨ rfind connection ':' = none then
    .error Text.STRING_CMD_SYNC_NO_SERVER
  else
    let credentials_string := config.get "taskd.credentials"
    if credentials_string = "" then
      .error Text.STRING_CMD_SYNC_BAD_CRED
    else
      let credentials := split credentials_string '/'
      if credentials.length ≠ 3 then
        .error Text.STRING_CMD_SYNC_BAD_CRED
      else
        let certificate := config.get "taskd.certificate"
        if certificate = "" then
          .error Text.STRING_CMD_SYNC_BAD_CERT
        else
          .ok ⟨connection, credentials, certificate⟩

/-- The local variables `payload` and `upload_count` (lines 96-97). -/
structure Upload where
  payload : String
  upload_count : Int
deriving DecidableEq, Repr

/-- The payload loops (lines 98-119): over the pending tasks when
`first_time_init` is set, over the backlog lines otherwise. -/
def buildPayload (env : Env) (first_time_init : Bool) (tdb2 : TDB2) : Upload :=
  if first_time_init then
    tdb2.pending_get_tasks.foldl
      (fun u i => ⟨u.payload ++ (env.composeJSON i ++ "\n"), u.upload_count + 1⟩) ⟨"", 0⟩
  else
    tdb2.backlog.get_lines.foldl
      (fun u i =>
        ⟨u.payload ++ (i ++ "\n"),
         if firstChar i = lbrace then u.upload_count + 1 else u.upload_count⟩) ⟨"", 0⟩

/-- The request of lines 122-129. -/
def buildRequest (credentials : List String) (payload : String) : Msg :=
  (((((Msg.empty.set "protocol" "v1").set "type" "sync").set "org"
    (credentials.getD 0 "")).set "user" (credentials.getD 1 "")).set "key"
    (credentials.getD 2 "")).setPayload payload

/-- The variables that the loop over the response lines changes: the context,
the `out` stream, `download_count` and `synch_key`. -/
structure Merge where
  ctx : Context
  out : List OutItem
  download_count : Int
  synch_key : String
deriving DecidableEq, Repr

/-- The body of the loop over the response lines (lines 158-194).  The `Task`
constructor is `env.parseTask`. -/
def mergeLine (env : Env) (colorAdded colorChanged : String) (m : Merge) (line : String) :
    Merge :=
  if firstChar line = lbrace then
    let from_server := env.parseTask line
    let uuid := from_server.get "uuid"
    if m.ctx.tdb2.get uuid then
      { m with
        download_count := m.download_count + 1,
        out := m.out ++
          [OutItem.str "  ",
           OutItem.colorize colorChanged
             (Text.STRING_CMD_SYNC_MOD uuid (from_server.get "description")),
           OutItem.str "\n"],
        ctx := m.ctx.tdb2_modify env from_server false }
    else
      { m with
        download_count := m.download_count + 1,
        out := m.out ++
          [OutItem.str "  ",
           OutItem.colorize colorAdded
             (Text.STRING_CMD_SYNC_ADD uuid (from_server.get "description")),
           OutItem.str "\n"],
        ctx := m.ctx.tdb2_add env from_server false }
  else if line ≠ "" then
    { m with synch_key := line, ctx := m.ctx.debug (Text.raw ("Synch key " ++ line)) }
  else
    m

/-- The loop over the response lines (lines 156-195). -/
def mergeLines (env : Env) (colorAdded colorChanged : String) (m : Merge)
    (lines : List String) : Merge :=
  lines.foldl (mergeLine env colorAdded colorChanged) m

/-- The commit step (lines 202-208): truncate the backlog, store the synch
key, commit. -/
def commitStep (ctx : Context) (synch_key : String) : Context :=
  ((((ctx.backlog_file_truncate).backlog_clear_tasks).backlog_clear_lines).backlog_add_line
    (synch_key ++ "\n")).tdb2_commit

/-- The status message (lines 211-219). -/
def statusMessage (ctx : Context) (upload_count download_count : Int) : Context :=
  if upload_count = 0 ∧ download_count = 0 then
    ctx.footnote Text.STRING_CMD_SYNC_SUCCESS0
  else if upload_count = 0 ∧ download_count > 0 then
    ctx.footnote (Text.STRING_CMD_SYNC_SUCCESS2 download_count)
  else if upload_count > 0 ∧ download_count = 0 then
    ctx.footnote (Text.STRING_CMD_SYNC_SUCCESS1 upload_count)
  else if upload_count > 0 ∧ download_count > 0 then
    ctx.footnote (Text.STRING_CMD_SYNC_SUCCESS3 upload_count download_count)
  else
    ctx

/-- The merge of a code 200 response, before the test on the synch key
(lines 140-195).  The call `tdb2.all_tasks ()` of line 152 loads the tasks,
which the embedding holds loaded. -/
def merge200 (env : Env) (ctx : Context) (out : List OutItem) (response : Msg) : Merge :=
  let colorAdded := ctx.config.get "color.sync.added"
  let colorChanged := ctx.config.get "color.sync.changed"
  let lines := split response.getPayload '\n'
  mergeLines env colorAdded colorChanged ⟨ctx, out, 0, ""⟩ lines

/-- The branch for code 200 (lines 140-220): the context and the `out`
stream after it. -/
def code200 (env : Env) (ctx : Context) (out : List OutItem) (upload_count : Int)
    (response : Msg) : Context × List OutItem :=
  let m := merge200 env ctx out response
  if m.synch_key ≠ "" then
    (statusMessage (commitStep m.ctx m.synch_key) upload_count m.download_count, m.out)
  else
    (m.ctx, m.out)

/-- The variables that the interpretation of a response changes: the
context, the `out` stream and `status`. -/
structure Interpreted where
  ctx : Context
  out : List OutItem
  status : Int
deriving DecidableEq, Repr

/-- The interpretation of the response code (lines 137-244). -/
def interpret (env : Env) (ctx : Context) (out : List OutItem) (upload_count : Int)
    (response : Msg) : Interpreted :=
  let code := response.get "code"
  if code = "200" then
    let r := code200 env ctx out upload_count response
    ⟨r.1, r.2, 0⟩
  else if code = "201" then
    ⟨ctx.footnote Text.STRING_CMD_SYNC_SUCCESS_NOP, out, 0⟩
  else if code = "301" then
    let new_server := response.get "info"
    ⟨((ctx.config_set "taskd.server" new_server).error Text.STRING_CMD_SYNC_RELOCATE0).error
      (Text.indent (Text.STRING_CMD_SYNC_RELOCATE1 new_server)), out, 0⟩
  else if code = "430" then
    ⟨ctx.error Text.STRING_CMD_SYNC_FAIL_ACCOUNT, out, 2⟩
  else
    ⟨ctx.error (Text.STRING_CMD_SYNC_FAIL_ERROR code (response.get "status")), out, 2⟩

/-- The display of the server messages (lines 247-254). -/
def displayMessages (env : Env) (ctx : Context) (response : Msg) : Context :=
  let to_be_displayed := response.get "messages"
  if to_be_displayed ≠ "" then
    if env.verbose "footnote" then ctx.footnote (Text.raw to_be_displayed)
    else ctx.debug (Text.raw to_be_displayed)
  else
    ctx

/-- What a run of `execute` leaves: the exception thrown or the status
returned, the string assigned to `output`, and the context. -/
structure Outcome where
  status : Except Text Int
  output : List OutItem
  ctx : Context
deriving Repr

/-- The context at the start of a run: nothing emitted, no call made. -/
def Context.start (config : Config) (tdb2 : TDB2) : Context :=
  ⟨config, tdb2, [], [], [], []⟩

/-- The function `CmdSync::execute (output)`, built with `HAVE_LIBGNUTLS`,
run on the command line words `words`. -/
def execute (env : Env) (words : List String) (config : Config) (tdb2 : TDB2) : Outcome :=
  let ctx := Context.start config tdb2
  match initWords env config false words with
  | .error e => ⟨.error e, [], ctx⟩
  | .ok first_time_init =>
    match checkConfig config with
    | .error e => ⟨.error e, [], ctx⟩
    | .ok settings =>
      let upload := buildPayload env first_time_init ctx.tdb2
      let request := buildRequest settings.credentials upload.payload
      let out := [OutItem.text (Text.STRING_CMD_SYNC_PROGRESS settings.connection),
                  OutItem.str "\n"]
      match send env ctx settings.connection settings.certificate request with
      | .error e => ⟨.error e, [], ctx⟩
      | .ok (some response, ctx1) =>
        let r := interpret env ctx1 out upload.upload_count response
        ⟨.ok r.status, r.out ++ [OutItem.str "\n"], displayMessages env r.ctx response⟩
      | .ok (none, ctx1) =>
        ⟨.ok 1, out ++ [OutItem.str "\n"], ctx1.error Text.STRING_CMD_SYNC_FAIL_CONNECT⟩

/-! ## Vocabulary of the statements -/

/-- The record lines of a payload: the lines whose first character is `{`. -/
def recordLines (lines : List String) : List String :=
  lines.filter (fun l => decide (firstChar l = lbrace))

/-- The key lines of a payload: the lines that are not blank and do not begin
with `{`. -/
def keyLines (lines : List String) : List String :=
  lines.filter (fun l => decide (firstChar l ≠ lbrace ∧ l ≠ ""))

/-- How far a run of `execute` gets with the server: the exception thrown
before or by `send`, or else `none` when `send` returns `false` and the
response when `send` returns `true`. -/
def roundTrip (env : Env) (words : List String) (config : Config) (tdb2 : TDB2) :
    Except Text (Option Msg) :=
  match initWords env config false words with
  | .error e => .error e
  | .ok first_time_init =>
    match checkConfig config with
    | .error e => .error e
    | .ok settings =>
      match send env (Context.start config tdb2) settings.connection settings.certificate
          (buildRequest settings.credentials (buildPayload env first_time_init tdb2).payload) with
      | .error e => .error e
      | .ok (response, _) => .ok response

/-- The calls that belong to the commit step. -/
def Call.isCommitStep : Call → Bool
  | Call.backlog_file_truncate => true
  | Call.backlog_clear_tasks => true
  | Call.backlog_clear_lines => true
  | Call.backlog_add_line _ => true
  | Call.tdb2_commit => true
  | _ => false

/-- The synch key that a response carries: its last payload line that is
neither blank nor a record, and the empty string when it has none. -/
def synchKey (response : Msg) : String :=
  (keyLines (split response.getPayload '\n')).getLastD ""

/-- The calls of the commit step for a synch key: truncate the backlog, clear
its caches, store the key, commit. -/
def commitCalls (synch_key : String) : List Call :=
  [Call.backlog_file_truncate, Call.backlog_clear_tasks, Call.backlog_clear_lines,
   Call.backlog_add_line (synch_key ++ "\n"), Call.tdb2_commit]

/-- A call to `tdb2.add` or `tdb2.modify` that leaves the backlog alone. -/
def Call.isMerge : Call → Bool
  | Call.tdb2_add _ false => true
  | Call.tdb2_modify _ false => true
  | _ => false

/-- A call that reaches the transport. -/
def Call.isTransport : Call → Bool
  | Call.tls_client _ _ _ _ => true
  | _ => false

/-- The concatenation, in order, of every line followed by a newline. -/
def concatLines : List String → String
  | [] => ""
  | line :: lines => (line ++ "\n") ++ concatLines lines

/-- The reference definition of the payload step, in the words of the spec.
First-time mode "emits every record in PendingSet as a ChangeRecord line" and
"counts emitted records as `upload_count`"; incremental mode "emits every line
of BacklogLog verbatim" and "counts only lines that are ChangeRecords",
those whose "first character is the structured-record delimiter". -/
def referencePayload (composeJSON : Task → String) (first_time_init : Bool)
    (pending : List Task) (backlog : List String) : Upload :=
  if first_time_init then
    ⟨concatLines (pending.map composeJSON), (pending.length : Int)⟩
  else
    ⟨concatLines backlog, ((backlog.filter (fun l => decide (firstChar l = lbrace))).length : Int)⟩

/-- The four summary notices of a committed run. -/
def Text.isSummary : Text → Bool
  | Text.STRING_CMD_SYNC_SUCCESS0 => true
  | Text.STRING_CMD_SYNC_SUCCESS1 _ => true
  | Text.STRING_CMD_SYNC_SUCCESS2 _ => true
  | Text.STRING_CMD_SYNC_SUCCESS3 _ _ => true
  | _ => false

/-- The summary notice for the two counts, in the words of the spec: "both
zero → anomalous-success notice; uploads only → sent N changes; downloads
only → received N changes; both → sent N, received M". -/
def summaryNotice (upload_count download_count : Int) : Text :=
  if upload_count = 0 then
    if download_count = 0 then Text.STRING_CMD_SYNC_SUCCESS0
    else Text.STRING_CMD_SYNC_SUCCESS2 download_count
  else
    if download_count = 0 then Text.STRING_CMD_SYNC_SUCCESS1 upload_count
    else Text.STRING_CMD_SYNC_SUCCESS3 upload_count download_count

/-- The footnotes that belong to the outcome of a response, before the
server messages are displayed: the summary notice after a commit, the no-op
notice for code 201, nothing otherwise. -/
def outcomeFootnotes (upload_count : Int) (response : Msg) : List Text :=
  if response.get "code" = "200" then
    (if synchKey response ≠ "" then
      [summaryNotice upload_count ((recordLines (split response.getPayload '\n')).length : Int)]
     else [])
  else if response.get "code" = "201" then [Text.STRING_CMD_SYNC_SUCCESS_NOP]
  else []

/-- The debug texts that belong to the outcome of a response, before the
server messages are displayed: one for each key line of a code 200 payload. -/
def outcomeDebugs (response : Msg) : List Text :=
  if response.get "code" = "200" then
    (keyLines (split response.getPayload '\n')).map (fun l => Text.raw ("Synch key " ++ l))
  else []

/-- A call to `tdb2.add`. -/
def Call.isAdd : Call → Bool
  | Call.tdb2_add _ _ => true
  | _ => false

/-- A call to `tdb2.modify`. -/
def Call.isModify : Call → Bool
  | Call.tdb2_modify _ _ => true
  | _ => false

/-- A call to `tdb2.add` for a task with the uuid `u`. -/
def Call.addsUuid (u : String) : Call → Bool
  | Call.tdb2_add task _ => task.get "uuid" == u
  | _ => false

/-- The lines of a text: the text cut at every newline, each newline ending
a line. -/
def linesOfChars : List Char → List (List Char)
  | [] => []
  | c :: cs =>
    if c = '\n' then [] :: linesOfChars cs
    else
      match linesOfChars cs with
      | [] => [[c]]
      | p :: ps => (c :: p) :: ps

/-- Modelled from the spec: the lines that the backing storage of the backlog
holds, "an ordered sequence of lines". -/
def fileLines (contents : String) : List String := (linesOfChars contents.data).map String.mk

/-- Modelled from the spec: the task database as the next run of the command
loads it: the tasks are those of the durable store and the backlog lines are
those of the backing storage, with nothing awaiting a commit. -/
def TDB2.reload (t : TDB2) : TDB2 :=
  ⟨t.stored, t.stored, ⟨t.backlog.file, fileLines t.backlog.file, [], []⟩⟩

/-! ## A concrete environment -/

/-- Whether the character sequence `s` begins with `p`. -/
def startsWith : List Char → List Char → Bool
  | [], _ => true
  | _ :: _, [] => false
  | a :: p, c :: s => a == c && startsWith p s

/-- What follows the first occurrence of `p` in a character sequence; empty
when `p` does not occur. -/
def dropThrough (p : List Char) : List Char → List Char
  | [] => []
  | c :: cs => if startsWith p (c :: cs) then (c :: cs).drop p.length else dropThrough p cs

/-- The string value of the attribute `name` in a JSON record line, and the
empty string when the line has no such attribute. -/
def jsonField (name line : String) : String :=
  String.mk ((dropThrough ("\"" ++ name ++ "\":\"").data line.data).takeWhile (fun c => c != '"'))

/-- A small environment for evaluating the definitions: a task is read from
the `uuid` and `description` attributes of its JSON line, the transport
answers, and the answer parses to `reply`. -/
def demoEnv (reply : Except String Msg) : Env where
  closeEnough := fun reference attempt _ => reference == attempt
  getBoolean := fun config name => config.get name == "yes"
  confirm := fun _ => true
  verbose := fun name => name == "footnote"
  parseTask := fun line =>
    ⟨[("uuid", jsonField "uuid" line), ("description", jsonField "description" line)]⟩
  composeJSON := fun task =>
    "\x7b\"uuid\":\"" ++ task.get "uuid" ++ "\",\"description\":\"" ++ task.get "description" ++
      "\"\x7d"
  serialize := fun request => request.payload
  parse := fun _ => reply
  tls := fun _ _ _ _ => .ok "incoming"

/-- An environment whose transport throws. -/
def downEnv : Env :=
  { demoEnv (.error "unused") with tls := fun _ _ _ _ => .error "Connection refused" }

/-- An environment whose user declines the confirmation prompt. -/
def declineEnv : Env :=
  { demoEnv (.error "unused") with confirm := fun _ => false }

/-- A task with a uuid and a description. -/
def demoTask (uuid description : String) : Task :=
  ⟨[("uuid", uuid), ("description", description)]⟩

/-- The JSON line of the task `A`. -/
def lineA : String := "\x7b\"uuid\":\"A\",\"description\":\"buy milk\"\x7d"

/-- The JSON line of the task `B`. -/
def lineB : String := "\x7b\"uuid\":\"B\",\"description\":\"call home\"\x7d"

/-- A configuration that passes the checks of `execute`. -/
def demoConfig : Config :=
  [("taskd.server", "host:6544"), ("taskd.credentials", "Org/User/Key"),
   ("taskd.certificate", "cert.pem")]

/-- A task database with the task `B`, whose backlog holds an earlier synch
key and one local change. -/
def demoTDB2 : TDB2 :=
  ⟨[demoTask "B" "call"], [demoTask "B" "call"],
   ⟨"OLDKEY\n" ++ lineB ++ "\n", ["OLDKEY", lineB], [], []⟩⟩

/-- A response with the given code and payload. -/
def demoResponse (code payload : String) : Msg := ⟨[("code", code)], payload⟩

/-! ## The task store under `add` and `modify` -/

theorem TDB2.get_iff (t : TDB2) (u : String) :
    t.get u = true ↔ ∃ x ∈ t.tasks, x.get "uuid" = u := by
  simp [TDB2.get]

theorem TDB2.get_add (cj : Task → String) (t : TDB2) (task : Task) (b : Bool) (u : String) :
    (t.add cj task b).get u = (t.get u || (task.get "uuid" == u)) := by
  simp [TDB2.get, TDB2.add]

theorem TDB2.get_modify (cj : Task → String) (t : TDB2) (task : Task) (b : Bool) (u : String) :
    (t.modify cj task b).get u = t.get u := by
  simp only [TDB2.get, TDB2.modify]
  induction t.tasks with
  | nil => rfl
  | cons x xs ih =>
    simp only [List.map_cons, List.any_cons, ih]
    by_cases h : x.get "uuid" = task.get "uuid"
    · simp [h]
    · simp [h]

/-! ## The loop over the response lines -/

section MergeLoop

variable (env : Env) (cA cC : String)

theorem mergeLines_nil (m : Merge) : mergeLines env cA cC m [] = m := rfl

theorem mergeLines_cons (m : Merge) (line : String) (lines : List String) :
    mergeLines env cA cC m (line :: lines) =
      mergeLines env cA cC (mergeLine env cA cC m line) lines := rfl

theorem mergeLines_append (m : Merge) (xs ys : List String) :
    mergeLines env cA cC m (xs ++ ys) = mergeLines env cA cC (mergeLines env cA cC m xs) ys := by
  simp [mergeLines, List.foldl_append]

/-- A record line whose uuid is in the store: `tdb2.modify` and the "changed"
notice. -/
theorem mergeLine_known (m : Merge) (line : String) (h : firstChar line = lbrace)
    (hk : m.ctx.tdb2.get ((env.parseTask line).get "uuid") = true) :
    mergeLine env cA cC m line =
      { m with
        download_count := m.download_count + 1,
        out := m.out ++
          [OutItem.str "  ",
           OutItem.colorize cC
             (Text.STRING_CMD_SYNC_MOD ((env.parseTask line).get "uuid")
               ((env.parseTask line).get "description")),
           OutItem.str "\n"],
        ctx := m.ctx.tdb2_modify env (env.parseTask line) false } := by
  simp [mergeLine, h, hk]

/-- A record line whose uuid is not in the store: `tdb2.add` and the "added"
notice. -/
theorem mergeLine_new (m : Merge) (line : String) (h : firstChar line = lbrace)
    (hk : m.ctx.tdb2.get ((env.parseTask line).get "uuid") = false) :
    mergeLine env cA cC m line =
      { m with
        download_count := m.download_count + 1,
        out := m.out ++
          [OutItem.str "  ",
           OutItem.colorize cA
             (Text.STRING_CMD_SYNC_ADD ((env.parseTask line).get "uuid")
               ((env.parseTask line).get "description")),
           OutItem.str "\n"],
        ctx := m.ctx.tdb2_add env (env.parseTask line) false } := by
  simp [mergeLine, h, hk]

theorem mergeLine_key (m : Merge) (line : String) (h : firstChar line ≠ lbrace)
    (hne : line ≠ "") :
    mergeLine env cA cC m line =
      { m with synch_key := line, ctx := m.ctx.debug (Text.raw ("Synch key " ++ line)) } := by
  simp [mergeLine, h, hne]

theorem mergeLine_blank (m : Merge) : mergeLine env cA cC m "" = m := by
  simp [mergeLine, firstChar, lbrace]

theorem recordLines_cons_record (line : String) (lines : List String)
    (h : firstChar line = lbrace) : recordLines (line :: lines) = line :: recordLines lines := by
  simp [recordLines, h]

theorem recordLines_cons_other (line : String) (lines : List String)
    (h : firstChar line ≠ lbrace) : recordLines (line :: lines) = recordLines lines := by
  simp [recordLines, h]

theorem recordLines_append (xs ys : List String) :
    recordLines (xs ++ ys) = recordLines xs ++ recordLines ys := by
  simp [recordLines]

/-- What one round of the loop does to the counters, the output and the
store, whatever the line. -/
theorem mergeLine_step (m : Merge) (line : String) :
    (firstChar line = lbrace ∧
      (mergeLine env cA cC m line).download_count = m.download_count + 1 ∧
      (∃ c, (mergeLine env cA cC m line).ctx.calls = m.ctx.calls ++ [c] ∧
        (c = Call.tdb2_add (env.parseTask line) false ∨
          c = Call.tdb2_modify (env.parseTask line) false)) ∧
      (∃ a b c, (mergeLine env cA cC m line).out = m.out ++ [a, b, c]) ∧
      (mergeLine env cA cC m line).synch_key = m.synch_key ∧
      (mergeLine env cA cC m line).ctx.debugs = m.ctx.debugs ∧
      (∀ u, (mergeLine env cA cC m line).ctx.tdb2.get u =
        (m.ctx.tdb2.get u || ((env.parseTask line).get "uuid" == u)))) ∨
    (firstChar line ≠ lbrace ∧
      (mergeLine env cA cC m line).download_count = m.download_count ∧
      (mergeLine env cA cC m line).ctx.calls = m.ctx.calls ∧
      (mergeLine env cA cC m line).out = m.out ∧
      (mergeLine env cA cC m line).ctx.tdb2 = m.ctx.tdb2 ∧
      (mergeLine env cA cC m line).synch_key = (if line = "" then m.synch_key else line) ∧
      (mergeLine env cA cC m line).ctx.debugs =
        (if line = "" then m.ctx.debugs
         else m.ctx.debugs ++ [Text.raw ("Synch key " ++ line)])) := by
  by_cases h : firstChar line = lbrace
  · left
    refine ⟨h, ?_⟩
    cases hk : m.ctx.tdb2.get ((env.parseTask line).get "uuid")
    · rw [mergeLine_new env cA cC m line h hk]
      refine ⟨rfl, ⟨_, rfl, Or.inl rfl⟩, ⟨_, _, _, rfl⟩, rfl, rfl, ?_⟩
      intro u
      simp [Context.tdb2_add, TDB2.get_add]
    · rw [mergeLine_known env cA cC m line h hk]
      refine ⟨rfl, ⟨_, rfl, Or.inr rfl⟩, ⟨_, _, _, rfl⟩, rfl, rfl, ?_⟩
      intro u
      simp only [Context.tdb2_modify, TDB2.get_modify]
      by_cases hu : (env.parseTask line).get "uuid" = u
      · subst hu; simp [hk]
      · simp [hu]
  · right
    refine ⟨h, ?_⟩
    by_cases hne : line = ""
    · subst hne
      rw [mergeLine_blank]
      simp
    · rw [mergeLine_key env cA cC m line h hne]
      simp [hne, Context.debug]

/-- One round of the loop changes neither the configuration, the backlog, the
durable task store, the footnotes nor the errors. -/
theorem mergeLine_frame (m : Merge) (line : String) :
    (mergeLine env cA cC m line).ctx.config = m.ctx.config ∧
    (mergeLine env cA cC m line).ctx.tdb2.backlog = m.ctx.tdb2.backlog ∧
    (mergeLine env cA cC m line).ctx.tdb2.stored = m.ctx.tdb2.stored ∧
    (mergeLine env cA cC m line).ctx.footnotes = m.ctx.footnotes ∧
    (mergeLine env cA cC m line).ctx.errors = m.ctx.errors := by
  by_cases h : firstChar line = lbrace
  · cases hk : m.ctx.tdb2.get ((env.parseTask line).get "uuid")
    · rw [mergeLine_new env cA cC m line h hk]
      simp [Context.tdb2_add, TDB2.add]
    · rw [mergeLine_known env cA cC m line h hk]
      simp [Context.tdb2_modify, TDB2.modify]
  · by_cases hne : line = ""
    · subst hne
      rw [mergeLine_blank]
      simp
    · rw [mergeLine_key env cA cC m line h hne]
      simp [Context.debug]

theorem mergeLines_frame (m : Merge) (lines : List String) :
    (mergeLines env cA cC m lines).ctx.config = m.ctx.config ∧
    (mergeLines env cA cC m lines).ctx.tdb2.backlog = m.ctx.tdb2.backlog ∧
    (mergeLines env cA cC m lines).ctx.tdb2.stored = m.ctx.tdb2.stored ∧
    (mergeLines env cA cC m lines).ctx.footnotes = m.ctx.footnotes ∧
    (mergeLines env cA cC m lines).ctx.errors = m.ctx.errors := by
  induction lines generalizing m with
  | nil => simp [mergeLines_nil]
  | cons line lines ih =>
    rw [mergeLines_cons]
    obtain ⟨h1, h2, h3, h4, h5⟩ := ih (mergeLine env cA cC m line)
    obtain ⟨k1, k2, k3, k4, k5⟩ := mergeLine_frame env cA cC m line
    exact ⟨h1.trans k1, h2.trans k2, h3.trans k3, h4.trans k4, h5.trans k5⟩

theorem mergeLines_download_count (m : Merge) (lines : List String) :
    (mergeLines env cA cC m lines).download_count =
      m.download_count + ((recordLines lines).length : Int) := by
  induction lines generalizing m with
  | nil => simp [mergeLines_nil, recordLines]
  | cons line lines ih =>
    rw [mergeLines_cons, ih]
    rcases mergeLine_step env cA cC m line with ⟨h, hd, -⟩ | ⟨h, hd, -⟩
    · rw [hd, recordLines_cons_record line lines h]
      simp only [List.length_cons]
      push_cast
      ring
    · rw [hd, recordLines_cons_other line lines h]

/-- The loop makes one call for each record line, and each is `tdb2.add` or
`tdb2.modify` with `add_to_backlog = false`. -/
theorem mergeLines_calls (m : Merge) (lines : List String) :
    ∃ cs, (mergeLines env cA cC m lines).ctx.calls = m.ctx.calls ++ cs ∧
      cs.length = (recordLines lines).length ∧
      ∀ c ∈ cs, ∃ task, c = Call.tdb2_add task false ∨ c = Call.tdb2_modify task false := by
  induction lines generalizing m with
  | nil => exact ⟨[], by simp [mergeLines_nil], rfl, by simp⟩
  | cons line lines ih =>
    rw [mergeLines_cons]
    obtain ⟨cs, hcs, hlen, hall⟩ := ih (mergeLine env cA cC m line)
    rcases mergeLine_step env cA cC m line with ⟨h, -, ⟨c, hc, hkind⟩, -⟩ | ⟨h, -, hc, -⟩
    · refine ⟨c :: cs, ?_, ?_, ?_⟩
      · rw [hcs, hc]; simp
      · rw [recordLines_cons_record line lines h]; simp [hlen]
      · intro c' hc'
        rcases List.mem_cons.1 hc' with rfl | hmem
        · exact ⟨_, hkind⟩
        · exact hall c' hmem
    · refine ⟨cs, ?_, ?_, hall⟩
      · rw [hcs, hc]
      · rw [recordLines_cons_other line lines h]; exact hlen

theorem mergeLines_out (m : Merge) (lines : List String) :
    ∃ os, (mergeLines env cA cC m lines).out = m.out ++ os ∧
      os.length = 3 * (recordLines lines).length := by
  induction lines generalizing m with
  | nil => exact ⟨[], by simp [mergeLines_nil], rfl⟩
  | cons line lines ih =>
    rw [mergeLines_cons]
    obtain ⟨os, hos, hlen⟩ := ih (mergeLine env cA cC m line)
    rcases mergeLine_step env cA cC m line with ⟨h, -, -, ⟨a, b, c, ho⟩, -⟩ | ⟨h, -, -, ho, -⟩
    · refine ⟨a :: b :: c :: os, ?_, ?_⟩
      · rw [hos, ho]; simp
      · rw [recordLines_cons_record line lines h]; simp [hlen]; ring
    · refine ⟨os, ?_, ?_⟩
      · rw [hos, ho]
      · rw [recordLines_cons_other line lines h]; exact hlen

/-- After the loop a uuid is in the store exactly when it was there before or
a record line carried it. -/
theorem mergeLines_get (m : Merge) (lines : List String) (u : String) :
    (mergeLines env cA cC m lines).ctx.tdb2.get u = true ↔
      (m.ctx.tdb2.get u = true ∨
        ∃ l ∈ lines, firstChar l = lbrace ∧ (env.parseTask l).get "uuid" = u) := by
  induction lines generalizing m with
  | nil => simp [mergeLines_nil]
  | cons line lines ih =>
    rw [mergeLines_cons, ih]
    rcases mergeLine_step env cA cC m line with ⟨h, -, -, -, -, -, hg⟩ | ⟨h, -, -, -, hg, -⟩
    · rw [hg u]
      simp only [Bool.or_eq_true, beq_iff_eq, List.mem_cons, exists_eq_or_imp]
      constructor
      · rintro ((hm | hu) | hl)
        · exact Or.inl hm
        · exact Or.inr (Or.inl ⟨h, hu⟩)
        · exact Or.inr (Or.inr hl)
      · rintro (hm | ⟨-, hu⟩ | hl)
        · exact Or.inl (Or.inl hm)
        · exact Or.inl (Or.inr hu)
        · exact Or.inr hl
    · rw [hg]
      simp only [List.mem_cons, exists_eq_or_imp]
      constructor
      · rintro (hm | hl)
        · exact Or.inl hm
        · exact Or.inr (Or.inr hl)
      · rintro (hm | ⟨hc, -⟩ | hl)
        · exact Or.inl hm
        · exact absurd hc h
        · exact Or.inr hl

theorem keyLines_cons_key (line : String) (lines : List String)
    (h : firstChar line ≠ lbrace) (hne : line ≠ "") :
    keyLines (line :: lines) = line :: keyLines lines := by
  simp [keyLines, h, hne]

theorem keyLines_cons_record (line : String) (lines : List String)
    (h : firstChar line = lbrace) : keyLines (line :: lines) = keyLines lines := by
  simp [keyLines, h]

theorem keyLines_cons_blank (lines : List String) : keyLines ("" :: lines) = keyLines lines := by
  simp [keyLines]

/-- The synch key after the loop: the last key line, or the key held before
the loop when there is none. -/
theorem mergeLines_synch_key (m : Merge) (lines : List String) :
    (mergeLines env cA cC m lines).synch_key = (keyLines lines).getLastD m.synch_key := by
  induction lines generalizing m with
  | nil => simp [mergeLines_nil, keyLines]
  | cons line lines ih =>
    rw [mergeLines_cons, ih]
    rcases mergeLine_step env cA cC m line with ⟨h, -, -, -, hk, -⟩ | ⟨h, -, -, -, -, hk, -⟩
    · rw [hk, keyLines_cons_record line lines h]
    · by_cases hne : line = ""
      · subst hne
        rw [hk, keyLines_cons_blank]
        simp
      · rw [hk, keyLines_cons_key line lines h hne, if_neg hne, List.getLastD_cons]

/-- Blank lines do nothing: the loop ends in the same state without them. -/
theorem mergeLines_filter_blank (m : Merge) (lines : List String) :
    mergeLines env cA cC m (lines.filter (fun l => decide (l ≠ ""))) =
      mergeLines env cA cC m lines := by
  induction lines generalizing m with
  | nil => rfl
  | cons line lines ih =>
    by_cases hne : line = ""
    · subst hne
      simp only [ne_eq, not_true_eq_false, decide_False, Bool.false_eq_true, not_false_eq_true,
        List.filter_cons_of_neg, mergeLines_cons, mergeLine_blank]
      exact ih m
    · simp only [ne_eq, hne, not_false_eq_true, decide_True, List.filter_cons_of_pos,
        mergeLines_cons]
      exact ih _

/-- The calls of the commit step, in order. -/
theorem commitStep_calls (ctx : Context) (synch_key : String) :
    (commitStep ctx synch_key).calls =
      ctx.calls ++ [Call.backlog_file_truncate, Call.backlog_clear_tasks,
        Call.backlog_clear_lines, Call.backlog_add_line (synch_key ++ "\n"), Call.tdb2_commit] := by
  simp [commitStep, Context.tdb2_commit, Context.backlog_add_line, Context.backlog_clear_lines,
    Context.backlog_clear_tasks, Context.backlog_file_truncate]

/-- The status message changes nothing but the footnotes. -/
theorem statusMessage_frame (ctx : Context) (u d : Int) :
    (statusMessage ctx u d).calls = ctx.calls ∧ (statusMessage ctx u d).tdb2 = ctx.tdb2 ∧
    (statusMessage ctx u d).config = ctx.config ∧ (statusMessage ctx u d).errors = ctx.errors ∧
    (statusMessage ctx u d).debugs = ctx.debugs := by
  unfold statusMessage
  split_ifs <;> simp [Context.footnote]

end MergeLoop

/-! ## Merge classification -/

/-- The element of `xs ++ c :: ys` at index `n + xs.length`, behind a list of
length `n`. -/
theorem getElem?_mid {α : Type} (ws xs ys : List α) (c : α) (n : Nat) (h : n = xs.length) :
    (ws ++ (xs ++ c :: ys))[ws.length + n]? = some c := by
  subst h
  rw [← List.append_assoc]
  rw [List.getElem?_append_right (by simp)]
  simp

/-- Claim C1.  In the branch for code 200, `download_count` is the number of
payload lines that begin with `{`.  Each such line is classified against the
store as it stands when the line is reached, which holds a uuid exactly when
the store held it before the merge or an earlier record line of the payload
carried it: when the uuid is there the line is applied by `tdb2.modify` with
the "changed" notice, and otherwise by `tdb2.add` with the "added" notice. -/
theorem merge200_classification (env : Env) (ctx : Context) (out : List OutItem)
    (response : Msg) :
    (merge200 env ctx out response).download_count =
      ((recordLines (split response.getPayload '\n')).length : Int) ∧
    ∀ pre line post, split response.getPayload '\n' = pre ++ line :: post →
      firstChar line = lbrace →
      let task := env.parseTask line
      let uuid := task.get "uuid"
      let k := (recordLines pre).length
      let cA := ctx.config.get "color.sync.added"
      let cC := ctx.config.get "color.sync.changed"
      let before := mergeLines env cA cC ⟨ctx, out, 0, ""⟩ pre
      let after := mergeLines env cA cC ⟨ctx, out, 0, ""⟩ (pre ++ [line])
      (before.ctx.tdb2.get uuid = true ↔
        ((∃ t ∈ ctx.tdb2.tasks, t.get "uuid" = uuid) ∨
          ∃ l ∈ pre, firstChar l = lbrace ∧ (env.parseTask l).get "uuid" = uuid)) ∧
      (before.ctx.tdb2.get uuid = true →
        (merge200 env ctx out response).ctx.calls[ctx.calls.length + k]? =
          some (Call.tdb2_modify task false) ∧
        (merge200 env ctx out response).out[out.length + (3 * k + 1)]? =
          some (OutItem.colorize cC (Text.STRING_CMD_SYNC_MOD uuid (task.get "description"))) ∧
        after.ctx.tdb2 = before.ctx.tdb2.modify env.composeJSON task false) ∧
      (before.ctx.tdb2.get uuid = false →
        (merge200 env ctx out response).ctx.calls[ctx.calls.length + k]? =
          some (Call.tdb2_add task false) ∧
        (merge200 env ctx out response).out[out.length + (3 * k + 1)]? =
          some (OutItem.colorize cA (Text.STRING_CMD_SYNC_ADD uuid (task.get "description"))) ∧
        after.ctx.tdb2 = before.ctx.tdb2.add env.composeJSON task false) := by
  refine ⟨?_, ?_⟩
  · simp [merge200, mergeLines_download_count]
  · intro pre line post hsplit hrec task uuid k cA cC before after
    have hm : merge200 env ctx out response =
        mergeLines env cA cC (mergeLine env cA cC before line) post := by
      simp only [merge200, hsplit, mergeLines_append, mergeLines_cons]
    have hafter : after = mergeLine env cA cC before line := by
      simp only [after, mergeLines_append, mergeLines_cons, mergeLines_nil]
    obtain ⟨cs, hcs, hcslen, -⟩ := mergeLines_calls env cA cC ⟨ctx, out, 0, ""⟩ pre
    obtain ⟨os, hos, hoslen⟩ := mergeLines_out env cA cC ⟨ctx, out, 0, ""⟩ pre
    obtain ⟨cs2, hcs2, -, -⟩ := mergeLines_calls env cA cC (mergeLine env cA cC before line) post
    obtain ⟨os2, hos2, -⟩ := mergeLines_out env cA cC (mergeLine env cA cC before line) post
    refine ⟨?_, ?_, ?_⟩
    · rw [mergeLines_get env cA cC ⟨ctx, out, 0, ""⟩ pre uuid, TDB2.get_iff]
    · intro hk
      have hstep := mergeLine_known env cA cC before line hrec hk
      rw [hm, hcs2, hos2, hafter, hstep]
      refine ⟨?_, ?_, rfl⟩
      · simp only [Context.tdb2_modify]
        rw [show before.ctx.calls = ctx.calls ++ cs from hcs, List.append_assoc,
          List.append_assoc]
        exact getElem?_mid ctx.calls cs cs2 _ k hcslen.symm
      · rw [show before.out = out ++ os from hos]
        simp only [List.append_assoc, List.cons_append, List.nil_append]
        rw [show out ++ (os ++ OutItem.str "  " :: OutItem.colorize cC
            (Text.STRING_CMD_SYNC_MOD ((env.parseTask line).get "uuid")
              ((env.parseTask line).get "description")) :: OutItem.str "\n" :: os2) =
          out ++ ((os ++ [OutItem.str "  "]) ++ OutItem.colorize cC
            (Text.STRING_CMD_SYNC_MOD ((env.parseTask line).get "uuid")
              ((env.parseTask line).get "description")) :: (OutItem.str "\n" :: os2)) by simp]
        exact getElem?_mid out _ _ _ (3 * k + 1) (by simp [hoslen, k])
    · intro hk
      have hstep := mergeLine_new env cA cC before line hrec hk
      rw [hm, hcs2, hos2, hafter, hstep]
      refine ⟨?_, ?_, rfl⟩
      · simp only [Context.tdb2_add]
        rw [show before.ctx.calls = ctx.calls ++ cs from hcs, List.append_assoc,
          List.append_assoc]
        exact getElem?_mid ctx.calls cs cs2 _ k hcslen.symm
      · rw [show before.out = out ++ os from hos]
        simp only [List.append_assoc, List.cons_append, List.nil_append]
        rw [show out ++ (os ++ OutItem.str "  " :: OutItem.colorize cA
            (Text.STRING_CMD_SYNC_ADD ((env.parseTask line).get "uuid")
              ((env.parseTask line).get "description")) :: OutItem.str "\n" :: os2) =
          out ++ ((os ++ [OutItem.str "  "]) ++ OutItem.colorize cA
            (Text.STRING_CMD_SYNC_ADD ((env.parseTask line).get "uuid")
              ((env.parseTask line).get "description")) :: (OutItem.str "\n" :: os2)) by simp]
        exact getElem?_mid out _ _ _ (3 * k + 1) (by simp [hoslen, k])

/-- Claim C1 on the payload of two records `A` and `B` and the key `KEY1`,
with `B` in the store: the line of `B` is the second record line and is
applied by `tdb2.modify`. -/
theorem merge200_classification_witness :
    split (demoResponse "200" (lineA ++ "\n" ++ lineB ++ "\nKEY1\n")).getPayload '\n' =
      [lineA] ++ lineB :: ["KEY1", ""] ∧
    firstChar lineB = lbrace ∧
    (merge200 (demoEnv (.error "")) (Context.start demoConfig demoTDB2) []
      (demoResponse "200" (lineA ++ "\n" ++ lineB ++ "\nKEY1\n"))).download_count = 2 ∧
    (merge200 (demoEnv (.error "")) (Context.start demoConfig demoTDB2) []
      (demoResponse "200" (lineA ++ "\n" ++ lineB ++ "\nKEY1\n"))).ctx.calls[1]? =
        some (Call.tdb2_modify (demoTask "B" "call home") false) ∧
    (merge200 (demoEnv (.error "")) (Context.start demoConfig demoTDB2) []
      (demoResponse "200" (lineA ++ "\n" ++ lineB ++ "\nKEY1\n"))).out[4]? =
        some (OutItem.colorize "" (Text.STRING_CMD_SYNC_MOD "B" "call home")) :=
  have h := merge200_classification (demoEnv (.error "")) (Context.start demoConfig demoTDB2) []
    (demoResponse "200" (lineA ++ "\n" ++ lineB ++ "\nKEY1\n"))
  have h2 := (h.2 [lineA] lineB ["KEY1", ""] (by decide) (by decide)).2.1 (by decide)
  ⟨by decide, by decide, h.1, h2.1, h2.2.1⟩

/-! ## Cursor extraction -/

/-- Claim C2.  In the branch for code 200 the synch key is the last payload
line that is neither blank nor a record (the empty string when there is
none), and the loop ends in the same state, key and `download_count`
included, when the blank lines are removed.  The payload of one record
followed by `CURSOR123` gives `download_count = 1` and the key `CURSOR123`;
the payload `CURSOR123` alone gives `download_count = 0`, the key `CURSOR123`,
and the commit step is performed. -/
theorem merge200_cursor (env : Env) (ctx : Context) (out : List OutItem) :
    (∀ response : Msg,
      (merge200 env ctx out response).synch_key =
        (keyLines (split response.getPayload '\n')).getLastD "") ∧
    (∀ (cA cC : String) (m : Merge) (lines : List String),
      (mergeLines env cA cC m (lines.filter (fun l => decide (l ≠ "")))).synch_key =
        (mergeLines env cA cC m lines).synch_key ∧
      (mergeLines env cA cC m (lines.filter (fun l => decide (l ≠ "")))).download_count =
        (mergeLines env cA cC m lines).download_count) ∧
    (∀ header : List (String × String),
      (merge200 env ctx out ⟨header, "\x7b\"uuid\":\"A\",...\x7d\nCURSOR123\n"⟩).download_count = 1 ∧
      (merge200 env ctx out ⟨header, "\x7b\"uuid\":\"A\",...\x7d\nCURSOR123\n"⟩).synch_key =
        "CURSOR123") ∧
    (∀ (header : List (String × String)) (upload_count : Int),
      (merge200 env ctx out ⟨header, "CURSOR123"⟩).download_count = 0 ∧
      (merge200 env ctx out ⟨header, "CURSOR123"⟩).synch_key = "CURSOR123" ∧
      (code200 env ctx out upload_count ⟨header, "CURSOR123"⟩).1.calls =
        ctx.calls ++ [Call.backlog_file_truncate, Call.backlog_clear_tasks,
          Call.backlog_clear_lines, Call.backlog_add_line "CURSOR123\n", Call.tdb2_commit]) := by
  have hkey : ∀ response : Msg, (merge200 env ctx out response).synch_key =
      (keyLines (split response.getPayload '\n')).getLastD "" := by
    intro response
    simp [merge200, mergeLines_synch_key]
  have hcount : ∀ response : Msg, (merge200 env ctx out response).download_count =
      ((recordLines (split response.getPayload '\n')).length : Int) := by
    intro response
    simp [merge200, mergeLines_download_count]
  refine ⟨hkey, ?_, ?_, ?_⟩
  · intro cA cC m lines
    rw [mergeLines_filter_blank]
    exact ⟨rfl, rfl⟩
  · intro header
    rw [hkey, hcount]
    simp only [Msg.getPayload]
    exact ⟨by decide, by decide⟩
  · intro header upload_count
    have hk : (merge200 env ctx out ⟨header, "CURSOR123"⟩).synch_key = "CURSOR123" := by
      rw [hkey]
      simp only [Msg.getPayload]
      decide
    have hd : (merge200 env ctx out ⟨header, "CURSOR123"⟩).download_count = 0 := by
      rw [hcount]
      simp only [Msg.getPayload]
      decide
    refine ⟨hd, hk, ?_⟩
    have hc : (merge200 env ctx out ⟨header, "CURSOR123"⟩).ctx.calls = ctx.calls := by
      obtain ⟨cs, hcs, hlen, -⟩ := mergeLines_calls env (ctx.config.get "color.sync.added")
        (ctx.config.get "color.sync.changed") ⟨ctx, out, 0, ""⟩ (split "CURSOR123" '\n')
      have h0 : (recordLines (split "CURSOR123" '\n')).length = 0 := by decide
      rw [h0, List.length_eq_zero] at hlen
      subst hlen
      simpa [merge200, Msg.getPayload] using hcs
    simp only [code200, hk]
    rw [if_pos (by decide)]
    simp only [(statusMessage_frame _ _ _).1, commitStep_calls, hc]
    rfl

/-! ## The shape of a run -/

theorem send_true (env : Env) (ctx ctx1 : Context) (dest certificate : String) (request response : Msg)
    (h : send env ctx dest certificate request = .ok (some response, ctx1)) :
    ∃ server port bytes,
      ctx1 = { ctx with calls := ctx.calls ++ [Call.tls_client server port certificate bytes] } := by
  unfold send at h
  split at h
  · cases h
  · dsimp only at h
    split at h
    · cases h
    · split at h
      · cases h
      · cases h
        exact ⟨_, _, _, rfl⟩

theorem send_false (env : Env) (ctx ctx1 : Context) (dest certificate : String) (request : Msg)
    (h : send env ctx dest certificate request = .ok (none, ctx1)) :
    ∃ server port bytes error,
      ctx1 = ({ ctx with calls := ctx.calls ++ [Call.tls_client server port certificate bytes] } :
        Context).debug (Text.raw error) := by
  unfold send at h
  split at h
  · cases h
  · dsimp only at h
    split at h
    · cases h
      exact ⟨_, _, _, _, rfl⟩
    · split at h
      · cases h
        exact ⟨_, _, _, _, rfl⟩
      · cases h

/-- A run in which an exception is thrown leaves the context as it was. -/
theorem execute_of_error (env : Env) (words : List String) (config : Config) (tdb2 : TDB2)
    (e : Text) (h : roundTrip env words config tdb2 = .error e) :
    execute env words config tdb2 = ⟨.error e, [], Context.start config tdb2⟩ := by
  unfold roundTrip at h
  unfold execute
  cases h1 : initWords env config false words with
  | error e1 =>
    simp only [h1] at h ⊢
    cases h; rfl
  | ok first =>
    simp only [h1] at h ⊢
    cases h2 : checkConfig config with
    | error e2 =>
      simp only [h2] at h ⊢
      cases h; rfl
    | ok settings =>
      simp only [h2] at h ⊢
      cases h3 : send env (Context.start config tdb2) settings.connection settings.certificate
          (buildRequest settings.credentials (buildPayload env first tdb2).payload) with
      | error e3 =>
        simp only [h3] at h
        simp only [Context.start] at h3
        simp only [Context.start, h3]
        cases h; rfl
      | ok r =>
        simp only [h3] at h
        cases h

/-- A run in which `send` returns `false`: status 1, the connection error,
and nothing else but the call to the transport and its debug text. -/
theorem execute_of_false (env : Env) (words : List String) (config : Config) (tdb2 : TDB2)
    (h : roundTrip env words config tdb2 = .ok none) :
    ∃ settings server port bytes error,
      checkConfig config = .ok settings ∧
      execute env words config tdb2 =
        ⟨.ok 1,
         [OutItem.text (Text.STRING_CMD_SYNC_PROGRESS settings.connection), OutItem.str "\n",
          OutItem.str "\n"],
         ⟨config, tdb2, [], [Text.STRING_CMD_SYNC_FAIL_CONNECT], [Text.raw error],
          [Call.tls_client server port settings.certificate bytes]⟩⟩ := by
  unfold roundTrip at h
  unfold execute
  cases h1 : initWords env config false words with
  | error e1 =>
    simp only [h1] at h
    cases h
  | ok first =>
    simp only [h1] at h ⊢
    cases h2 : checkConfig config with
    | error e2 =>
      simp only [h2] at h
      cases h
    | ok settings =>
      simp only [h2] at h ⊢
      cases h3 : send env (Context.start config tdb2) settings.connection settings.certificate
          (buildRequest settings.credentials (buildPayload env first tdb2).payload) with
      | error e3 =>
        simp only [h3] at h
        cases h
      | ok r =>
        obtain ⟨r, ctx1⟩ := r
        simp only [h3] at h
        cases h
        obtain ⟨server, port, bytes, error, hctx⟩ := send_false _ _ _ _ _ _ h3
        refine ⟨settings, server, port, bytes, error, rfl, ?_⟩
        simp only [Context.start] at h3
        simp only [Context.start, h3, hctx]
        rfl

/-- A run in which `send` returns `true`: the response is interpreted in the
context that holds the call to the transport, and its messages are displayed. -/
theorem execute_of_response (env : Env) (words : List String) (config : Config) (tdb2 : TDB2)
    (response : Msg) (h : roundTrip env words config tdb2 = .ok (some response)) :
    ∃ first_time_init settings server port bytes,
      initWords env config false words = .ok first_time_init ∧
      checkConfig config = .ok settings ∧
      execute env words config tdb2 =
        ⟨.ok (interpret env
            ⟨config, tdb2, [], [], [], [Call.tls_client server port settings.certificate bytes]⟩
            [OutItem.text (Text.STRING_CMD_SYNC_PROGRESS settings.connection), OutItem.str "\n"]
            (buildPayload env first_time_init tdb2).upload_count response).status,
         (interpret env
            ⟨config, tdb2, [], [], [], [Call.tls_client server port settings.certificate bytes]⟩
            [OutItem.text (Text.STRING_CMD_SYNC_PROGRESS settings.connection), OutItem.str "\n"]
            (buildPayload env first_time_init tdb2).upload_count response).out ++
            [OutItem.str "\n"],
         displayMessages env (interpret env
            ⟨config, tdb2, [], [], [], [Call.tls_client server port settings.certificate bytes]⟩
            [OutItem.text (Text.STRING_CMD_SYNC_PROGRESS settings.connection), OutItem.str "\n"]
            (buildPayload env first_time_init tdb2).upload_count response).ctx response⟩ := by
  unfold roundTrip at h
  unfold execute
  cases h1 : initWords env config false words with
  | error e1 =>
    simp only [h1] at h
    cases h
  | ok first =>
    simp only [h1] at h ⊢
    cases h2 : checkConfig config with
    | error e2 =>
      simp only [h2] at h
      cases h
    | ok settings =>
      simp only [h2] at h ⊢
      cases h3 : send env (Context.start config tdb2) settings.connection settings.certificate
          (buildRequest settings.credentials (buildPayload env first tdb2).payload) with
      | error e3 =>
        simp only [h3] at h
        cases h
      | ok r =>
        obtain ⟨r, ctx1⟩ := r
        simp only [h3] at h
        cases h
        obtain ⟨server, port, bytes, hctx⟩ := send_true _ _ _ _ _ _ _ h3
        refine ⟨first, settings, server, port, bytes, rfl, rfl, ?_⟩
        simp only [Context.start] at h3
        simp only [Context.start, h3, hctx]
        rfl

/-! ## The calls of a run -/

theorem merge200_synch_key (env : Env) (ctx : Context) (out : List OutItem) (response : Msg) :
    (merge200 env ctx out response).synch_key = synchKey response := by
  simp [merge200, mergeLines_synch_key, synchKey]

theorem merge200_calls (env : Env) (ctx : Context) (out : List OutItem) (response : Msg) :
    ∃ merges, (merge200 env ctx out response).ctx.calls = ctx.calls ++ merges ∧
      merges.length = (recordLines (split response.getPayload '\n')).length ∧
      ∀ c ∈ merges, c.isMerge = true := by
  obtain ⟨cs, hcs, hlen, hall⟩ := mergeLines_calls env (ctx.config.get "color.sync.added")
    (ctx.config.get "color.sync.changed") ⟨ctx, out, 0, ""⟩ (split response.getPayload '\n')
  refine ⟨cs, hcs, hlen, ?_⟩
  intro c hc
  obtain ⟨task, rfl | rfl⟩ := hall c hc <;> rfl

theorem displayMessages_frame (env : Env) (ctx : Context) (response : Msg) :
    (displayMessages env ctx response).calls = ctx.calls ∧
    (displayMessages env ctx response).tdb2 = ctx.tdb2 ∧
    (displayMessages env ctx response).config = ctx.config ∧
    (displayMessages env ctx response).errors = ctx.errors := by
  unfold displayMessages
  dsimp only
  split_ifs <;> simp [Context.footnote, Context.debug]

/-- The calls that the interpretation of a response makes: for code 200 one
merge call for each record line followed, when the response carries a synch
key, by the commit step; for code 301 the change of `taskd.server`; none for
any other code. -/
theorem interpret_calls (env : Env) (ctx : Context) (out : List OutItem) (upload_count : Int)
    (response : Msg) :
    (response.get "code" = "200" →
      ∃ merges, (∀ c ∈ merges, c.isMerge = true) ∧
        merges.length = (recordLines (split response.getPayload '\n')).length ∧
        (interpret env ctx out upload_count response).ctx.calls = ctx.calls ++
          (merges ++ (if synchKey response ≠ "" then commitCalls (synchKey response) else []))) ∧
    (response.get "code" ≠ "200" →
      (interpret env ctx out upload_count response).ctx.calls = ctx.calls ++
        (if response.get "code" = "301" then
          [Call.config_set "taskd.server" (response.get "info")]
         else [])) := by
  refine ⟨?_, ?_⟩
  · intro h200
    obtain ⟨merges, hm, hlen, hall⟩ := merge200_calls env ctx out response
    refine ⟨merges, hall, hlen, ?_⟩
    simp only [interpret, h200, if_true, code200, merge200_synch_key]
    by_cases hk : synchKey response = ""
    · simp [hk, hm]
    · simp only [ne_eq, hk, not_false_eq_true, if_true, (statusMessage_frame _ _ _).1,
        commitStep_calls, hm, commitCalls, List.append_assoc]
  · intro h200
    simp only [interpret, h200, if_false]
    split_ifs <;> simp_all [Context.footnote, Context.error, Context.config_set]

/-- The calls of a whole run. -/
theorem execute_calls (env : Env) (words : List String) (config : Config) (tdb2 : TDB2) :
    (∀ e, roundTrip env words config tdb2 = .error e →
      (execute env words config tdb2).ctx.calls = []) ∧
    (roundTrip env words config tdb2 = .ok none →
      ∃ t, t.isTransport = true ∧ (execute env words config tdb2).ctx.calls = [t]) ∧
    (∀ response, roundTrip env words config tdb2 = .ok (some response) →
      response.get "code" = "200" →
      ∃ t merges, t.isTransport = true ∧ (∀ c ∈ merges, c.isMerge = true) ∧
        merges.length = (recordLines (split response.getPayload '\n')).length ∧
        (execute env words config tdb2).ctx.calls = t ::
          (merges ++ (if synchKey response ≠ "" then commitCalls (synchKey response) else []))) ∧
    (∀ response, roundTrip env words config tdb2 = .ok (some response) →
      response.get "code" ≠ "200" →
      ∃ t, t.isTransport = true ∧
        (execute env words config tdb2).ctx.calls = t ::
          (if response.get "code" = "301" then
            [Call.config_set "taskd.server" (response.get "info")]
           else [])) := by
  refine ⟨?_, ?_, ?_, ?_⟩
  · intro e h
    rw [execute_of_error env words config tdb2 e h]
    rfl
  · intro h
    obtain ⟨settings, server, port, bytes, error, -, hex⟩ := execute_of_false env words config tdb2 h
    rw [hex]
    exact ⟨Call.tls_client server port settings.certificate bytes, rfl, rfl⟩
  · intro response h h200
    obtain ⟨first, settings, server, port, bytes, -, -, hex⟩ :=
      execute_of_response env words config tdb2 response h
    obtain ⟨merges, hall, hlen, hcalls⟩ := (interpret_calls env
      ⟨config, tdb2, [], [], [], [Call.tls_client server port settings.certificate bytes]⟩
      [OutItem.text (Text.STRING_CMD_SYNC_PROGRESS settings.connection), OutItem.str "\n"]
      (buildPayload env first tdb2).upload_count response).1 h200
    refine ⟨Call.tls_client server port settings.certificate bytes, merges, rfl, hall, hlen, ?_⟩
    rw [hex]
    simp only [(displayMessages_frame _ _ _).1, hcalls]
    rfl
  · intro response h h200
    obtain ⟨first, settings, server, port, bytes, -, -, hex⟩ :=
      execute_of_response env words config tdb2 response h
    have hcalls := (interpret_calls env
      ⟨config, tdb2, [], [], [], [Call.tls_client server port settings.certificate bytes]⟩
      [OutItem.text (Text.STRING_CMD_SYNC_PROGRESS settings.connection), OutItem.str "\n"]
      (buildPayload env first tdb2).upload_count response).2 h200
    refine ⟨Call.tls_client server port settings.certificate bytes, rfl, ?_⟩
    rw [hex]
    simp only [(displayMessages_frame _ _ _).1, hcalls]
    rfl

theorem Call.not_commitStep_of_merge (c : Call) (h : c.isMerge = true) :
    c.isCommitStep = false := by
  cases c <;> simp_all [Call.isMerge, Call.isCommitStep]

theorem Call.not_commitStep_of_transport (c : Call) (h : c.isTransport = true) :
    c.isCommitStep = false := by
  cases c <;> simp_all [Call.isTransport, Call.isCommitStep]

theorem filter_commitStep_merges (merges : List Call) (h : ∀ c ∈ merges, c.isMerge = true) :
    merges.filter Call.isCommitStep = [] := by
  rw [List.filter_eq_nil_iff]
  intro c hc
  simp [Call.not_commitStep_of_merge c (h c hc)]

theorem filter_commitStep_commitCalls (key : String) :
    (commitCalls key).filter Call.isCommitStep = commitCalls key := by
  simp [commitCalls, Call.isCommitStep]

/-- The commit-step calls of a run: those of one commit step when a response
with code 200 and a synch key was received, and none otherwise. -/
theorem execute_commit_calls (env : Env) (words : List String) (config : Config) (tdb2 : TDB2) :
    (execute env words config tdb2).ctx.calls.filter Call.isCommitStep =
      match roundTrip env words config tdb2 with
      | .ok (some response) =>
        if response.get "code" = "200" ∧ synchKey response ≠ "" then
          commitCalls (synchKey response)
        else []
      | _ => [] := by
  obtain ⟨herr, hfalse, h200, hother⟩ := execute_calls env words config tdb2
  cases hrt : roundTrip env words config tdb2 with
  | error e => simp [herr e hrt]
  | ok r =>
    cases r with
    | none =>
      obtain ⟨t, ht, hc⟩ := hfalse hrt
      simp [hc, Call.not_commitStep_of_transport t ht]
    | some response =>
      by_cases hcode : response.get "code" = "200"
      · obtain ⟨t, merges, ht, hall, -, hc⟩ := h200 response hrt hcode
        simp only [hc]
        rw [List.filter_cons_of_neg (by simp [Call.not_commitStep_of_transport t ht])]
        by_cases hk : synchKey response = ""
        · simp [hcode, hk, filter_commitStep_merges merges hall]
        · simp [hcode, hk, filter_commitStep_merges merges hall, filter_commitStep_commitCalls]
      · obtain ⟨t, ht, hc⟩ := hother response hrt hcode
        simp only [hc]
        rw [List.filter_cons_of_neg (by simp [Call.not_commitStep_of_transport t ht])]
        simp only [hcode, if_false, false_and]
        split_ifs <;> simp [Call.isCommitStep]

/-! ## When the commit step is performed -/

/-- Claim C3.  In every run of `execute` the calls of the commit step
(truncate the backlog, store the synch key, `tdb2.commit`) are made exactly
when `send` returned `true`, the response code is 200 and the response carries
a non-empty synch key, and then they are the calls of one commit step for that
key.  A run whose round trip failed, or whose response has any other code,
makes none of them. -/
theorem execute_commit_iff (env : Env) (words : List String) (config : Config) (tdb2 : TDB2) :
    (Call.tdb2_commit ∈ (execute env words config tdb2).ctx.calls ↔
      ∃ response, roundTrip env words config tdb2 = .ok (some response) ∧
        response.get "code" = "200" ∧ synchKey response ≠ "") ∧
    (Call.backlog_file_truncate ∈ (execute env words config tdb2).ctx.calls ↔
      ∃ response, roundTrip env words config tdb2 = .ok (some response) ∧
        response.get "code" = "200" ∧ synchKey response ≠ "") ∧
    ((∃ line, Call.backlog_add_line line ∈ (execute env words config tdb2).ctx.calls) ↔
      ∃ response, roundTrip env words config tdb2 = .ok (some response) ∧
        response.get "code" = "200" ∧ synchKey response ≠ "") ∧
    (∀ response, roundTrip env words config tdb2 = .ok (some response) →
      response.get "code" = "200" → synchKey response ≠ "" →
      (execute env words config tdb2).ctx.calls.filter Call.isCommitStep =
        commitCalls (synchKey response)) ∧
    ((∀ response, roundTrip env words config tdb2 = .ok (some response) →
        response.get "code" ≠ "200") →
      (execute env words config tdb2).ctx.calls.filter Call.isCommitStep = []) := by
  have hf := execute_commit_calls env words config tdb2
  have hmem : ∀ c : Call, c.isCommitStep = true →
      (c ∈ (execute env words config tdb2).ctx.calls ↔
        c ∈ (execute env words config tdb2).ctx.calls.filter Call.isCommitStep) := by
    intro c hc
    simp [List.mem_filter, hc]
  cases hrt : roundTrip env words config tdb2 with
  | error e =>
    simp only [hrt] at hf
    refine ⟨?_, ?_, ?_, ?_, ?_⟩
    · rw [hmem Call.tdb2_commit rfl, hf]; simp
    · rw [hmem Call.backlog_file_truncate rfl, hf]; simp
    · constructor
      · rintro ⟨line, hl⟩
        rw [hmem (Call.backlog_add_line line) rfl, hf] at hl
        simp at hl
      · rintro ⟨response, hr, -⟩
        cases hr
    · intro response hr; cases hr
    · intro _; exact hf
  | ok r =>
    cases r with
    | none =>
      simp only [hrt] at hf
      refine ⟨?_, ?_, ?_, ?_, ?_⟩
      · rw [hmem Call.tdb2_commit rfl, hf]; simp
      · rw [hmem Call.backlog_file_truncate rfl, hf]; simp
      · constructor
        · rintro ⟨line, hl⟩
          rw [hmem (Call.backlog_add_line line) rfl, hf] at hl
          simp at hl
        · rintro ⟨response, hr, -⟩
          cases hr
      · intro response hr; cases hr
      · intro _; exact hf
    | some response =>
      simp only [hrt] at hf
      by_cases hc : response.get "code" = "200" ∧ synchKey response ≠ ""
      · rw [if_pos hc] at hf
        have hex : ∃ r, Except.ok (some response) = (Except.ok (some r) : Except Text (Option Msg)) ∧
            r.get "code" = "200" ∧ synchKey r ≠ "" := ⟨response, rfl, hc⟩
        refine ⟨?_, ?_, ?_, ?_, ?_⟩
        · rw [hmem Call.tdb2_commit rfl, hf]
          simp only [hex, iff_true]
          simp [commitCalls]
        · rw [hmem Call.backlog_file_truncate rfl, hf]
          simp only [hex, iff_true]
          simp [commitCalls]
        · simp only [hex, iff_true]
          refine ⟨synchKey response ++ "\n", ?_⟩
          rw [hmem (Call.backlog_add_line (synchKey response ++ "\n")) rfl, hf]
          simp [commitCalls]
        · intro r hr _ _
          cases hr
          exact hf
        · intro hall
          exact absurd hc.1 (hall response rfl)
      · rw [if_neg hc] at hf
        have hex : ¬ ∃ r, Except.ok (some response) = (Except.ok (some r) : Except Text (Option Msg)) ∧
            r.get "code" = "200" ∧ synchKey r ≠ "" := by
          rintro ⟨r, hr, hr2⟩
          cases hr
          exact hc hr2
        refine ⟨?_, ?_, ?_, ?_, ?_⟩
        · rw [hmem Call.tdb2_commit rfl, hf]
          simp only [hex, iff_false]
          simp
        · rw [hmem Call.backlog_file_truncate rfl, hf]
          simp only [hex, iff_false]
          simp
        · simp only [hex, iff_false]
          rintro ⟨line, hl⟩
          rw [hmem (Call.backlog_add_line line) rfl, hf] at hl
          simp at hl
        · intro r hr h1 h2
          cases hr
          exact absurd ⟨h1, h2⟩ hc
        · intro _; exact hf

/-- Claim C3 on a run that receives code 200 with two records and the key
`KEY1`: the commit step is performed, for `KEY1`. -/
theorem execute_commit_iff_witness :
    roundTrip (demoEnv (.ok (demoResponse "200" (lineA ++ "\n" ++ lineB ++ "\nKEY1\n")))) [] demoConfig demoTDB2 =
      .ok (some (demoResponse "200" (lineA ++ "\n" ++ lineB ++ "\nKEY1\n"))) ∧
    (demoResponse "200" (lineA ++ "\n" ++ lineB ++ "\nKEY1\n")).get "code" = "200" ∧
    synchKey (demoResponse "200" (lineA ++ "\n" ++ lineB ++ "\nKEY1\n")) ≠ "" ∧
    (execute (demoEnv (.ok (demoResponse "200" (lineA ++ "\n" ++ lineB ++ "\nKEY1\n")))) [] demoConfig
      demoTDB2).ctx.calls.filter Call.isCommitStep = commitCalls "KEY1" :=
  ⟨rfl, by decide, by decide,
   (execute_commit_iff (demoEnv (.ok (demoResponse "200" (lineA ++ "\n" ++ lineB ++ "\nKEY1\n")))) [] demoConfig
      demoTDB2).2.2.2.1 (demoResponse "200" (lineA ++ "\n" ++ lineB ++ "\nKEY1\n")) rfl (by decide) (by decide)⟩

/-! ## The task database after a run -/

/-- The commit step leaves a backlog that holds the synch key line and
nothing else, and makes the tasks in memory the durable ones. -/
theorem commitStep_tdb2 (ctx : Context) (synch_key : String) :
    (commitStep ctx synch_key).tdb2 =
      ⟨ctx.tdb2.tasks, ctx.tdb2.tasks, ⟨synch_key ++ "\n", [synch_key ++ "\n"], [], []⟩⟩ := by
  simp [commitStep, Context.tdb2_commit, Context.backlog_add_line, Context.backlog_clear_lines,
    Context.backlog_clear_tasks, Context.backlog_file_truncate, TDB2.commit, Backlog.commit,
    Backlog.add_line, Backlog.clear_lines, Backlog.clear_tasks, Backlog.file_truncate,
    String.join]

theorem commitStep_config (ctx : Context) (synch_key : String) :
    (commitStep ctx synch_key).config = ctx.config := by
  simp [commitStep, Context.tdb2_commit, Context.backlog_add_line, Context.backlog_clear_lines,
    Context.backlog_clear_tasks, Context.backlog_file_truncate]

theorem merge200_frame (env : Env) (ctx : Context) (out : List OutItem) (response : Msg) :
    (merge200 env ctx out response).ctx.config = ctx.config ∧
    (merge200 env ctx out response).ctx.tdb2.backlog = ctx.tdb2.backlog ∧
    (merge200 env ctx out response).ctx.tdb2.stored = ctx.tdb2.stored ∧
    (merge200 env ctx out response).ctx.footnotes = ctx.footnotes ∧
    (merge200 env ctx out response).ctx.errors = ctx.errors :=
  mergeLines_frame env _ _ ⟨ctx, out, 0, ""⟩ _

/-- The task database after the interpretation of a response. -/
theorem interpret_tdb2 (env : Env) (ctx : Context) (out : List OutItem) (upload_count : Int)
    (response : Msg) :
    (response.get "code" ≠ "200" →
      (interpret env ctx out upload_count response).ctx.tdb2 = ctx.tdb2) ∧
    (response.get "code" = "200" → synchKey response = "" →
      (interpret env ctx out upload_count response).ctx.tdb2 =
        (merge200 env ctx out response).ctx.tdb2) ∧
    (response.get "code" = "200" → synchKey response ≠ "" →
      (interpret env ctx out upload_count response).ctx.tdb2 =
        ⟨(merge200 env ctx out response).ctx.tdb2.tasks,
         (merge200 env ctx out response).ctx.tdb2.tasks,
         ⟨synchKey response ++ "\n", [synchKey response ++ "\n"], [], []⟩⟩) := by
  refine ⟨?_, ?_, ?_⟩
  · intro h200
    simp only [interpret, h200, if_false]
    split_ifs <;> simp [Context.footnote, Context.error, Context.config_set]
  · intro h200 hk
    simp [interpret, h200, code200, merge200_synch_key, hk]
  · intro h200 hk
    simp [interpret, h200, code200, merge200_synch_key, hk, (statusMessage_frame _ _ _).2.1,
      commitStep_tdb2]

/-- The configuration after the interpretation of a response. -/
theorem interpret_config (env : Env) (ctx : Context) (out : List OutItem) (upload_count : Int)
    (response : Msg) :
    (interpret env ctx out upload_count response).ctx.config =
      if response.get "code" = "301" then ctx.config.set "taskd.server" (response.get "info")
      else ctx.config := by
  by_cases h200 : response.get "code" = "200"
  · have h301 : ¬ ("200" = "301") := by decide
    simp only [interpret, h200, if_true, h301, if_false, code200]
    by_cases hk : (merge200 env ctx out response).synch_key = ""
    · simp only [hk, ne_eq, not_true_eq_false, if_false]
      exact (merge200_frame _ _ _ _).1
    · simp only [hk, ne_eq, not_false_eq_true, if_true]
      rw [(statusMessage_frame _ _ _).2.2.1, commitStep_config, (merge200_frame _ _ _ _).1]
  · simp only [interpret, h200, if_false]
    split_ifs <;> simp_all [Context.footnote, Context.error, Context.config_set]

/-- The task database after a whole run that received a response. -/
theorem execute_tdb2 (env : Env) (words : List String) (config : Config) (tdb2 : TDB2)
    (response : Msg) (h : roundTrip env words config tdb2 = .ok (some response)) :
    (response.get "code" ≠ "200" → (execute env words config tdb2).ctx.tdb2 = tdb2) ∧
    (response.get "code" = "200" → synchKey response = "" →
      (execute env words config tdb2).ctx.tdb2.backlog = tdb2.backlog ∧
      (execute env words config tdb2).ctx.tdb2.stored = tdb2.stored) ∧
    (response.get "code" = "200" → synchKey response ≠ "" →
      (execute env words config tdb2).ctx.tdb2.backlog =
        ⟨synchKey response ++ "\n", [synchKey response ++ "\n"], [], []⟩ ∧
      (execute env words config tdb2).ctx.tdb2.stored =
        (execute env words config tdb2).ctx.tdb2.tasks) := by
  obtain ⟨first, settings, server, port, bytes, -, -, hex⟩ :=
    execute_of_response env words config tdb2 response h
  obtain ⟨h1, h2, h3⟩ := interpret_tdb2 env
    ⟨config, tdb2, [], [], [], [Call.tls_client server port settings.certificate bytes]⟩
    [OutItem.text (Text.STRING_CMD_SYNC_PROGRESS settings.connection), OutItem.str "\n"]
    (buildPayload env first tdb2).upload_count response
  rw [hex]
  simp only [(displayMessages_frame _ _ _).2.1]
  refine ⟨?_, ?_, ?_⟩
  · intro hc
    rw [h1 hc]
  · intro hc hk
    rw [h2 hc hk]
    exact ⟨(merge200_frame _ _ _ _).2.1, (merge200_frame _ _ _ _).2.2.1⟩
  · intro hc hk
    rw [h3 hc hk]
    exact ⟨rfl, rfl⟩

/-! ## Error outcomes and the local state -/

/-- Claim C4, as the code has it.  After a transport failure, and after a
response with a code other than 200, the task database (the tasks in memory,
the durable task store and the backlog) is exactly what it was before the
run.  After a code 200 response without a synch key the backlog and the
durable task store are what they were and no commit-step call is made, while
each record line of the payload has been applied to the tasks in memory by one
call of `tdb2.add` or `tdb2.modify`. -/
theorem execute_error_frame (env : Env) (words : List String) (config : Config) (tdb2 : TDB2) :
    (roundTrip env words config tdb2 = .ok none →
      (execute env words config tdb2).ctx.tdb2 = tdb2) ∧
    (∀ response, roundTrip env words config tdb2 = .ok (some response) →
      response.get "code" ≠ "200" → (execute env words config tdb2).ctx.tdb2 = tdb2) ∧
    (∀ response, roundTrip env words config tdb2 = .ok (some response) →
      response.get "code" = "200" → synchKey response = "" →
      (execute env words config tdb2).ctx.tdb2.backlog = tdb2.backlog ∧
      (execute env words config tdb2).ctx.tdb2.stored = tdb2.stored ∧
      (execute env words config tdb2).ctx.calls.filter Call.isCommitStep = [] ∧
      ∃ t merges, t.isTransport = true ∧ (∀ c ∈ merges, c.isMerge = true) ∧
        merges.length = (recordLines (split response.getPayload '\n')).length ∧
        (execute env words config tdb2).ctx.calls = t :: merges) := by
  refine ⟨?_, ?_, ?_⟩
  · intro h
    obtain ⟨settings, server, port, bytes, error, -, hex⟩ := execute_of_false env words config tdb2 h
    rw [hex]
  · intro response h hc
    exact (execute_tdb2 env words config tdb2 response h).1 hc
  · intro response h hc hk
    obtain ⟨hb, hs⟩ := (execute_tdb2 env words config tdb2 response h).2.1 hc hk
    refine ⟨hb, hs, ?_, ?_⟩
    · rw [execute_commit_calls, h]
      simp [hk]
    · obtain ⟨t, merges, ht, hall, hlen, hcalls⟩ :=
        (execute_calls env words config tdb2).2.2.1 response h hc
      refine ⟨t, merges, ht, hall, hlen, ?_⟩
      rw [hcalls]
      simp [hk]

/-- Claim C4 as amended, on a run that receives code 200 with the record `A`
and no key: the backlog and the durable task store are unchanged. -/
theorem execute_error_frame_witness :
    roundTrip (demoEnv (.ok (demoResponse "200" (lineA ++ "\n")))) [] demoConfig demoTDB2 =
      .ok (some (demoResponse "200" (lineA ++ "\n"))) ∧
    (demoResponse "200" (lineA ++ "\n")).get "code" = "200" ∧
    synchKey (demoResponse "200" (lineA ++ "\n")) = "" ∧
    (execute (demoEnv (.ok (demoResponse "200" (lineA ++ "\n")))) [] demoConfig demoTDB2).ctx.tdb2.backlog =
      demoTDB2.backlog ∧
    (execute (demoEnv (.ok (demoResponse "200" (lineA ++ "\n")))) [] demoConfig demoTDB2).ctx.tdb2.stored =
      demoTDB2.stored :=
  have h := (execute_error_frame (demoEnv (.ok (demoResponse "200" (lineA ++ "\n")))) [] demoConfig
    demoTDB2).2.2 (demoResponse "200" (lineA ++ "\n")) rfl (by decide) (by decide)
  ⟨rfl, by decide, by decide, h.1, h.2.1⟩

/-- Claim C4 as stated fails: a code 200 response whose payload is the record
`A` and no synch key ends without commit, and the task store in memory holds
the task `A`, which it did not hold before the run. -/
theorem execute_keyless_store_changed :
    roundTrip (demoEnv (.ok (demoResponse "200" (lineA ++ "\n")))) [] demoConfig demoTDB2 =
      .ok (some (demoResponse "200" (lineA ++ "\n"))) ∧
    synchKey (demoResponse "200" (lineA ++ "\n")) = "" ∧
    Call.tdb2_commit ∉
      (execute (demoEnv (.ok (demoResponse "200" (lineA ++ "\n")))) [] demoConfig demoTDB2).ctx.calls ∧
    Call.tdb2_add (demoTask "A" "buy milk") false ∈
      (execute (demoEnv (.ok (demoResponse "200" (lineA ++ "\n")))) [] demoConfig demoTDB2).ctx.calls ∧
    demoTDB2.get "A" = false ∧
    (execute (demoEnv (.ok (demoResponse "200" (lineA ++ "\n")))) [] demoConfig demoTDB2).ctx.tdb2.get "A" =
      true ∧
    (execute (demoEnv (.ok (demoResponse "200" (lineA ++ "\n")))) [] demoConfig demoTDB2).ctx.tdb2 ≠
      demoTDB2 := by
  refine ⟨rfl, by decide, by decide, by decide, by decide, by decide, by decide⟩

/-! ## Status and errors of a run -/

theorem commitStep_frame (ctx : Context) (synch_key : String) :
    (commitStep ctx synch_key).errors = ctx.errors ∧
    (commitStep ctx synch_key).footnotes = ctx.footnotes ∧
    (commitStep ctx synch_key).debugs = ctx.debugs := by
  simp [commitStep, Context.tdb2_commit, Context.backlog_add_line, Context.backlog_clear_lines,
    Context.backlog_clear_tasks, Context.backlog_file_truncate]

/-- The status that the interpretation of a response sets. -/
theorem interpret_status (env : Env) (ctx : Context) (out : List OutItem) (upload_count : Int)
    (response : Msg) :
    (interpret env ctx out upload_count response).status =
      if response.get "code" = "200" ∨ response.get "code" = "201" ∨
          response.get "code" = "301" then 0 else 2 := by
  unfold interpret
  dsimp only
  split_ifs <;> simp_all

/-- The errors that the interpretation of a response emits. -/
theorem interpret_errors (env : Env) (ctx : Context) (out : List OutItem) (upload_count : Int)
    (response : Msg) :
    (interpret env ctx out upload_count response).ctx.errors = ctx.errors ++
      (if response.get "code" = "200" ∨ response.get "code" = "201" then []
       else if response.get "code" = "301" then
        [Text.STRING_CMD_SYNC_RELOCATE0,
         Text.indent (Text.STRING_CMD_SYNC_RELOCATE1 (response.get "info"))]
       else if response.get "code" = "430" then [Text.STRING_CMD_SYNC_FAIL_ACCOUNT]
       else [Text.STRING_CMD_SYNC_FAIL_ERROR (response.get "code") (response.get "status")]) := by
  by_cases h200 : response.get "code" = "200"
  · simp only [interpret, h200, if_true, true_or, code200, List.append_nil]
    by_cases hk : (merge200 env ctx out response).synch_key = ""
    · simp only [hk, ne_eq, not_true_eq_false, if_false]
      exact (merge200_frame _ _ _ _).2.2.2.2
    · simp only [hk, ne_eq, not_false_eq_true, if_true]
      rw [(statusMessage_frame _ _ _).2.2.2.1, (commitStep_frame _ _).1,
        (merge200_frame _ _ _ _).2.2.2.2]
  · simp only [interpret, h200, if_false, false_or]
    split_ifs <;> simp_all [Context.footnote, Context.error, Context.config_set]

/-- The status and the errors of a whole run that received a response. -/
theorem execute_status (env : Env) (words : List String) (config : Config) (tdb2 : TDB2)
    (response : Msg) (h : roundTrip env words config tdb2 = .ok (some response)) :
    (execute env words config tdb2).status =
      .ok (if response.get "code" = "200" ∨ response.get "code" = "201" ∨
          response.get "code" = "301" then 0 else 2) ∧
    (execute env words config tdb2).ctx.errors =
      (if response.get "code" = "200" ∨ response.get "code" = "201" then []
       else if response.get "code" = "301" then
        [Text.STRING_CMD_SYNC_RELOCATE0,
         Text.indent (Text.STRING_CMD_SYNC_RELOCATE1 (response.get "info"))]
       else if response.get "code" = "430" then [Text.STRING_CMD_SYNC_FAIL_ACCOUNT]
       else [Text.STRING_CMD_SYNC_FAIL_ERROR (response.get "code") (response.get "status")]) := by
  obtain ⟨first, settings, server, port, bytes, -, -, hex⟩ :=
    execute_of_response env words config tdb2 response h
  rw [hex]
  simp only [(displayMessages_frame _ _ _).2.2.2, interpret_status, interpret_errors,
    List.nil_append, and_self]

/-- The last element of a non-empty list has every property that all the
elements have. -/
theorem getLastD_of_forall {α : Type} (P : α → Prop) :
    ∀ (l : List α) (d : α), l ≠ [] → (∀ x ∈ l, P x) → P (l.getLastD d)
  | [], _, h, _ => absurd rfl h
  | [a], _, _, hall => by simpa using hall a (by simp)
  | a :: b :: t, _, _, hall => by
    rw [List.getLastD_cons]
    exact getLastD_of_forall P (b :: t) a (by simp) (fun x hx => hall x (List.mem_cons_of_mem _ hx))

theorem keyLines_ne_blank (lines : List String) : ∀ l ∈ keyLines lines, l ≠ "" := by
  intro l hl
  simp only [keyLines, List.mem_filter, decide_eq_true_eq] at hl
  exact hl.2.2

/-- A response with at least one key line carries a synch key: its last key
line. -/
theorem synchKey_ne_of_keyLines (response : Msg)
    (h : keyLines (split response.getPayload '\n') ≠ []) : synchKey response ≠ "" :=
  getLastD_of_forall (fun l => l ≠ "") _ "" h (keyLines_ne_blank _)

/-! ## More than one synch key -/

/-- The debug texts of the loop: one for each key line, in order. -/
theorem mergeLines_debugs (env : Env) (cA cC : String) (m : Merge) (lines : List String) :
    (mergeLines env cA cC m lines).ctx.debugs =
      m.ctx.debugs ++ (keyLines lines).map (fun l => Text.raw ("Synch key " ++ l)) := by
  induction lines generalizing m with
  | nil => simp [mergeLines_nil, keyLines]
  | cons line lines ih =>
    rw [mergeLines_cons, ih]
    rcases mergeLine_step env cA cC m line with ⟨h, -, -, -, -, hd, -⟩ | ⟨h, -, -, -, -, -, hd⟩
    · rw [hd, keyLines_cons_record line lines h]
    · by_cases hne : line = ""
      · subst hne
        rw [hd, keyLines_cons_blank]
        simp
      · rw [hd, keyLines_cons_key line lines h hne, if_neg hne]
        simp

theorem displayMessages_debugs (env : Env) (ctx : Context) (response : Msg) :
    (displayMessages env ctx response).debugs = ctx.debugs ++
      (if response.get "messages" ≠ "" ∧ env.verbose "footnote" = false then
        [Text.raw (response.get "messages")] else []) := by
  unfold displayMessages
  dsimp only
  split_ifs <;> simp_all [Context.footnote, Context.debug]

theorem interpret_debugs_200 (env : Env) (ctx : Context) (out : List OutItem)
    (upload_count : Int) (response : Msg) (hc : response.get "code" = "200") :
    (interpret env ctx out upload_count response).ctx.debugs = ctx.debugs ++
      (keyLines (split response.getPayload '\n')).map (fun l => Text.raw ("Synch key " ++ l)) := by
  simp only [interpret, hc, if_true, code200]
  by_cases hk : (merge200 env ctx out response).synch_key = ""
  · simp only [hk, ne_eq, not_true_eq_false, if_false]
    simp [merge200, mergeLines_debugs]
  · simp only [hk, ne_eq, not_false_eq_true, if_true]
    rw [(statusMessage_frame _ _ _).2.2.2.2, (commitStep_frame _ _).2.2]
    simp [merge200, mergeLines_debugs]

/-- The debug texts of a run that received code 200: one "Synch key" text
for each key line of the payload, then the server messages when they are
displayed as a debug text. -/
theorem execute_debugs_200 (env : Env) (words : List String) (config : Config) (tdb2 : TDB2)
    (response : Msg) (h : roundTrip env words config tdb2 = .ok (some response))
    (hc : response.get "code" = "200") :
    (execute env words config tdb2).ctx.debugs =
      (keyLines (split response.getPayload '\n')).map (fun l => Text.raw ("Synch key " ++ l)) ++
      (if response.get "messages" ≠ "" ∧ env.verbose "footnote" = false then
        [Text.raw (response.get "messages")] else []) := by
  obtain ⟨first, settings, server, port, bytes, -, -, hex⟩ :=
    execute_of_response env words config tdb2 response h
  rw [hex]
  simp only [displayMessages_debugs, interpret_debugs_200 _ _ _ _ _ hc, List.nil_append]

/-- A non-empty list ends with its last element. -/
theorem eq_append_getLastD {α : Type} :
    ∀ (l : List α) (d : α), l ≠ [] → ∃ front, l = front ++ [l.getLastD d]
  | [], _, h => absurd rfl h
  | [a], _, _ => ⟨[], by simp⟩
  | a :: b :: t, _, _ => by
    obtain ⟨front, hfront⟩ := eq_append_getLastD (b :: t) a (by simp)
    refine ⟨a :: front, ?_⟩
    rw [List.getLastD_cons, List.cons_append, ← hfront]

/-- Claim C5, as the code has it.  When a code 200 response holds more than
one key line, the last of them is the synch key and the commit step is
performed for it: the backlog then holds that key alone.  The run returns
status 0 and emits no error; each key line leaves one "Synch key" debug text
and nothing marks the duplicate. -/
theorem execute_duplicate_key (env : Env) (words : List String) (config : Config) (tdb2 : TDB2)
    (response : Msg) (h : roundTrip env words config tdb2 = .ok (some response))
    (hc : response.get "code" = "200")
    (hdup : 1 < (keyLines (split response.getPayload '\n')).length) :
    (∃ earlier, keyLines (split response.getPayload '\n') = earlier ++ [synchKey response]) ∧
    synchKey response ≠ "" ∧
    (execute env words config tdb2).ctx.calls.filter Call.isCommitStep =
      commitCalls (synchKey response) ∧
    (execute env words config tdb2).ctx.tdb2.backlog =
      ⟨synchKey response ++ "\n", [synchKey response ++ "\n"], [], []⟩ ∧
    (execute env words config tdb2).status = .ok 0 ∧
    (execute env words config tdb2).ctx.errors = [] ∧
    (execute env words config tdb2).ctx.debugs =
      (keyLines (split response.getPayload '\n')).map (fun l => Text.raw ("Synch key " ++ l)) ++
      (if response.get "messages" ≠ "" ∧ env.verbose "footnote" = false then
        [Text.raw (response.get "messages")] else []) := by
  have hne : keyLines (split response.getPayload '\n') ≠ [] := by
    intro h0
    rw [h0] at hdup
    simp at hdup
  have hk : synchKey response ≠ "" := synchKey_ne_of_keyLines response hne
  refine ⟨eq_append_getLastD _ "" hne, hk, ?_, ?_, ?_, ?_, ?_⟩
  · rw [execute_commit_calls, h]
    simp [hc, hk]
  · exact ((execute_tdb2 env words config tdb2 response h).2.2 hc hk).1
  · rw [(execute_status env words config tdb2 response h).1]
    simp [hc]
  · rw [(execute_status env words config tdb2 response h).2]
    simp [hc]
  · exact execute_debugs_200 env words config tdb2 response h hc

/-- Claim C5 as amended, on the payload of the two key lines `KEY1` and
`KEY2`. -/
theorem execute_duplicate_key_witness :
    roundTrip (demoEnv (.ok (demoResponse "200" "KEY1\nKEY2\n"))) [] demoConfig demoTDB2 =
      .ok (some (demoResponse "200" "KEY1\nKEY2\n")) ∧
    (demoResponse "200" "KEY1\nKEY2\n").get "code" = "200" ∧
    1 < (keyLines (split (demoResponse "200" "KEY1\nKEY2\n").getPayload '\n')).length ∧
    (execute (demoEnv (.ok (demoResponse "200" "KEY1\nKEY2\n"))) [] demoConfig
      demoTDB2).ctx.calls.filter Call.isCommitStep = commitCalls "KEY2" ∧
    (execute (demoEnv (.ok (demoResponse "200" "KEY1\nKEY2\n"))) [] demoConfig
      demoTDB2).ctx.errors = [] :=
  have h := execute_duplicate_key (demoEnv (.ok (demoResponse "200" "KEY1\nKEY2\n"))) []
    demoConfig demoTDB2 (demoResponse "200" "KEY1\nKEY2\n") rfl (by decide) (by decide)
  ⟨rfl, by decide, by decide, h.2.2.1, h.2.2.2.2.2.1⟩

/-- Claim C5 as stated fails: the code 200 payload with the two key lines
`KEY1` and `KEY2` is committed with `KEY2`, the backlog file then holds
`KEY2` alone, the status is 0 and neither an error nor a footnote mentions
the duplicate. -/
theorem execute_duplicate_key_committed :
    keyLines (split (demoResponse "200" "KEY1\nKEY2\n").getPayload '\n') = ["KEY1", "KEY2"] ∧
    Call.tdb2_commit ∈ (execute (demoEnv (.ok (demoResponse "200" "KEY1\nKEY2\n"))) []
      demoConfig demoTDB2).ctx.calls ∧
    Call.backlog_file_truncate ∈ (execute (demoEnv (.ok (demoResponse "200" "KEY1\nKEY2\n"))) []
      demoConfig demoTDB2).ctx.calls ∧
    (execute (demoEnv (.ok (demoResponse "200" "KEY1\nKEY2\n"))) []
      demoConfig demoTDB2).ctx.tdb2.backlog.file = "KEY2\n" ∧
    (execute (demoEnv (.ok (demoResponse "200" "KEY1\nKEY2\n"))) []
      demoConfig demoTDB2).ctx.errors = [] ∧
    (execute (demoEnv (.ok (demoResponse "200" "KEY1\nKEY2\n"))) []
      demoConfig demoTDB2).ctx.footnotes = [Text.STRING_CMD_SYNC_SUCCESS1 1] ∧
    (execute (demoEnv (.ok (demoResponse "200" "KEY1\nKEY2\n"))) []
      demoConfig demoTDB2).ctx.debugs = [Text.raw "Synch key KEY1", Text.raw "Synch key KEY2"] := by
  refine ⟨by decide, by decide, by decide, by decide, by decide, by decide, by decide⟩

/-! ## The backlog after the commit step -/

/-- No piece of a split holds the delimiter. -/
theorem splitChars_no_delim (d : Char) : ∀ (s : List Char), ∀ p ∈ splitChars d s, d ∉ p
  | [], p, hp => by
    simp only [splitChars, List.mem_singleton] at hp
    subst hp
    simp
  | c :: cs, p, hp => by
    have ih := splitChars_no_delim d cs
    unfold splitChars at hp
    by_cases hcd : c = d
    · rw [if_pos hcd] at hp
      rcases List.mem_cons.1 hp with rfl | hmem
      · simp
      · exact ih p hmem
    · rw [if_neg hcd] at hp
      cases hs : splitChars d cs with
      | nil =>
        rw [hs] at hp
        simp only [List.mem_singleton] at hp
        subst hp
        simpa using fun h => hcd h.symm
      | cons q qs =>
        rw [hs] at hp ih
        rcases List.mem_cons.1 hp with rfl | hmem
        · have hq := ih q (List.mem_cons_self _ _)
          simp only [List.mem_cons, not_or]
          exact ⟨fun h => hcd h.symm, hq⟩
        · exact ih p (List.mem_cons_of_mem _ hmem)

theorem split_no_delim (input : String) (d : Char) : ∀ l ∈ split input d, d ∉ l.data := by
  intro l hl
  unfold split at hl
  split_ifs at hl
  · simp at hl
  · obtain ⟨p, hp, rfl⟩ := List.mem_map.1 hl
    exact splitChars_no_delim d _ p hp

/-- A synch key holds no newline. -/
theorem synchKey_no_newline (response : Msg) : '\n' ∉ (synchKey response).data := by
  by_cases h : keyLines (split response.getPayload '\n') = []
  · simp [synchKey, h]
  · refine getLastD_of_forall (fun l => '\n' ∉ l.data) _ "" h ?_
    intro l hl
    simp only [keyLines, List.mem_filter] at hl
    exact split_no_delim _ _ l hl.1

/-- Claim C6.  The commit step turns any backlog into the one that holds the
line of the synch key and nothing else: the file is the key followed by a
newline, the line cache is that one line, and no line of the earlier backlog
remains.  This is the backlog at the end of every run that performs the
commit step, and the key holds no newline of its own.  Neither `tdb2.add` nor
`tdb2.modify` with `add_to_backlog = false`, nor the whole merge loop, changes
the backlog. -/
theorem commit_backlog (env : Env) :
    (∀ (ctx : Context) (synch_key : String),
      (commitStep ctx synch_key).tdb2.backlog =
        ⟨synch_key ++ "\n", [synch_key ++ "\n"], [], []⟩) ∧
    (∀ (words : List String) (config : Config) (tdb2 : TDB2) (response : Msg),
      roundTrip env words config tdb2 = .ok (some response) →
      response.get "code" = "200" → synchKey response ≠ "" →
      (execute env words config tdb2).ctx.tdb2.backlog =
        ⟨synchKey response ++ "\n", [synchKey response ++ "\n"], [], []⟩ ∧
      '\n' ∉ (synchKey response).data) ∧
    (∀ (t : TDB2) (task : Task),
      (t.add env.composeJSON task false).backlog = t.backlog ∧
      (t.modify env.composeJSON task false).backlog = t.backlog) ∧
    (∀ (cA cC : String) (m : Merge) (lines : List String),
      (mergeLines env cA cC m lines).ctx.tdb2.backlog = m.ctx.tdb2.backlog) := by
  refine ⟨?_, ?_, ?_, ?_⟩
  · intro ctx synch_key
    rw [commitStep_tdb2]
  · intro words config tdb2 response h hc hk
    exact ⟨((execute_tdb2 env words config tdb2 response h).2.2 hc hk).1,
      synchKey_no_newline response⟩
  · intro t task
    exact ⟨by simp [TDB2.add], by simp [TDB2.modify]⟩
  · intro cA cC m lines
    exact (mergeLines_frame env cA cC m lines).2.1

/-- Claim C6 on a run whose backlog held an earlier key and a local change
and that receives two records and the key `KEY1`: the backlog file then holds
`KEY1` alone. -/
theorem commit_backlog_witness :
    roundTrip (demoEnv (.ok (demoResponse "200" (lineA ++ "\n" ++ lineB ++ "\nKEY1\n")))) []
      demoConfig demoTDB2 = .ok (some (demoResponse "200" (lineA ++ "\n" ++ lineB ++ "\nKEY1\n"))) ∧
    (demoResponse "200" (lineA ++ "\n" ++ lineB ++ "\nKEY1\n")).get "code" = "200" ∧
    synchKey (demoResponse "200" (lineA ++ "\n" ++ lineB ++ "\nKEY1\n")) ≠ "" ∧
    demoTDB2.backlog.lines = ["OLDKEY", lineB] ∧
    (execute (demoEnv (.ok (demoResponse "200" (lineA ++ "\n" ++ lineB ++ "\nKEY1\n")))) []
      demoConfig demoTDB2).ctx.tdb2.backlog = ⟨"KEY1\n", ["KEY1\n"], [], []⟩ :=
  ⟨rfl, by decide, by decide, rfl,
   ((commit_backlog (demoEnv (.ok (demoResponse "200" (lineA ++ "\n" ++ lineB ++ "\nKEY1\n"))))).2.1
      [] demoConfig demoTDB2 (demoResponse "200" (lineA ++ "\n" ++ lineB ++ "\nKEY1\n")) rfl
      (by decide) (by decide)).1⟩

/-! ## The exit status -/

/-- The status of a whole run, by how far the run gets with the server. -/
theorem execute_status_cases (env : Env) (words : List String) (config : Config) (tdb2 : TDB2) :
    (execute env words config tdb2).status =
      match roundTrip env words config tdb2 with
      | .error e => .error e
      | .ok none => .ok 1
      | .ok (some response) =>
        .ok (if response.get "code" = "200" ∨ response.get "code" = "201" ∨
          response.get "code" = "301" then 0 else 2) := by
  cases hrt : roundTrip env words config tdb2 with
  | error e => rw [execute_of_error env words config tdb2 e hrt]
  | ok r =>
    cases r with
    | none =>
      obtain ⟨settings, server, port, bytes, error, -, hex⟩ :=
        execute_of_false env words config tdb2 hrt
      rw [hex]
    | some response => exact (execute_status env words config tdb2 response hrt).1

/-- Claim C7, as the code has it.  The status returned is 1 exactly when
`send` returned `false`; it is 2 exactly when a response was received whose
code is none of 200, 201 and 301, so that code 430 always gives 2; and it is
0 exactly when a response was received whose code is 200, 201 or 301,
whatever its payload. -/
theorem execute_exit_status (env : Env) (words : List String) (config : Config) (tdb2 : TDB2) :
    ((execute env words config tdb2).status = .ok 1 ↔
      roundTrip env words config tdb2 = .ok none) ∧
    ((execute env words config tdb2).status = .ok 2 ↔
      ∃ response, roundTrip env words config tdb2 = .ok (some response) ∧
        response.get "code" ≠ "200" ∧ response.get "code" ≠ "201" ∧
        response.get "code" ≠ "301") ∧
    ((execute env words config tdb2).status = .ok 0 ↔
      ∃ response, roundTrip env words config tdb2 = .ok (some response) ∧
        (response.get "code" = "200" ∨ response.get "code" = "201" ∨
          response.get "code" = "301")) ∧
    (∀ response, roundTrip env words config tdb2 = .ok (some response) →
      response.get "code" = "430" → (execute env words config tdb2).status = .ok 2) := by
  have hs := execute_status_cases env words config tdb2
  cases hrt : roundTrip env words config tdb2 with
  | error e =>
    rw [hrt] at hs
    simp [hs]
  | ok r =>
    cases r with
    | none =>
      rw [hrt] at hs
      simp [hs]
    | some response =>
      rw [hrt] at hs
      simp only [hs]
      by_cases hc : response.get "code" = "200" ∨ response.get "code" = "201" ∨
          response.get "code" = "301"
      · simp only [hc, if_true]
        refine ⟨by simp, ?_, ?_, ?_⟩
        · constructor
          · intro h; simp at h
          · rintro ⟨r, hr, h1, h2, h3⟩
            cases hr
            rcases hc with hc | hc | hc
            · exact absurd hc h1
            · exact absurd hc h2
            · exact absurd hc h3
        · constructor
          · intro _; exact ⟨response, rfl, hc⟩
          · intro _; trivial
        · intro r hr h430
          cases hr
          rw [h430] at hc
          exact absurd hc (by decide)
      · simp only [hc, if_false]
        refine ⟨by simp, ?_, ?_, ?_⟩
        · constructor
          · intro _
            refine ⟨response, rfl, ?_, ?_, ?_⟩
            · exact fun h => hc (Or.inl h)
            · exact fun h => hc (Or.inr (Or.inl h))
            · exact fun h => hc (Or.inr (Or.inr h))
          · intro _; trivial
        · constructor
          · intro h; simp at h
          · rintro ⟨r, hr, h⟩
            cases hr
            exact absurd h hc
        · intro r hr _
          trivial

/-- Claim C7 as amended, on a run that receives code 430. -/
theorem execute_exit_status_witness :
    roundTrip (demoEnv (.ok (demoResponse "430" ""))) [] demoConfig demoTDB2 =
      .ok (some (demoResponse "430" "")) ∧
    (demoResponse "430" "").get "code" = "430" ∧
    (execute (demoEnv (.ok (demoResponse "430" ""))) [] demoConfig demoTDB2).status = .ok 2 :=
  ⟨rfl, by decide,
   (execute_exit_status (demoEnv (.ok (demoResponse "430" ""))) [] demoConfig demoTDB2).2.2.2
     (demoResponse "430" "") rfl (by decide)⟩

/-- Claim C7 as stated fails: status 0 is returned by a run that receives a
code 200 payload with a record and no synch key, which commits nothing, and by
a run that receives code 301, which merges nothing and reports the relocation
as an error. -/
theorem execute_status_zero_without_sync :
    (execute (demoEnv (.ok (demoResponse "200" (lineA ++ "\n")))) [] demoConfig demoTDB2).status =
      .ok 0 ∧
    synchKey (demoResponse "200" (lineA ++ "\n")) = "" ∧
    Call.tdb2_commit ∉
      (execute (demoEnv (.ok (demoResponse "200" (lineA ++ "\n")))) [] demoConfig demoTDB2).ctx.calls ∧
    (execute (demoEnv (.ok (demoResponse "200" (lineA ++ "\n")))) [] demoConfig
      demoTDB2).ctx.tdb2.stored = demoTDB2.stored ∧
    (execute (demoEnv (.ok (demoResponse "200" (lineA ++ "\n")))) [] demoConfig
      demoTDB2).ctx.footnotes = [] ∧
    (execute (demoEnv (.ok ⟨[("code", "301"), ("info", "new:6544")], lineA ++ "\nKEY1\n"⟩)) []
      demoConfig demoTDB2).status = .ok 0 ∧
    (execute (demoEnv (.ok ⟨[("code", "301"), ("info", "new:6544")], lineA ++ "\nKEY1\n"⟩)) []
      demoConfig demoTDB2).ctx.tdb2 = demoTDB2 ∧
    (execute (demoEnv (.ok ⟨[("code", "301"), ("info", "new:6544")], lineA ++ "\nKEY1\n"⟩)) []
      demoConfig demoTDB2).ctx.errors =
        [Text.STRING_CMD_SYNC_RELOCATE0, Text.indent (Text.STRING_CMD_SYNC_RELOCATE1 "new:6544")] := by
  refine ⟨rfl, by decide, by decide, by decide, by decide, rfl, by decide, by decide⟩

/-! ## Relocation -/

theorem Config.get_set (c : Config) (name value : String) : (c.set name value).get name = value := by
  simp [Config.get, Config.set, List.lookup]

/-- The interpretation of a response with a code other than 200 writes
nothing to the `out` stream. -/
theorem interpret_out (env : Env) (ctx : Context) (out : List OutItem) (upload_count : Int)
    (response : Msg) (h : response.get "code" ≠ "200") :
    (interpret env ctx out upload_count response).out = out := by
  simp only [interpret, h, if_false]
  split_ifs <;> rfl

/-- The configuration and the output of a whole run that received a
response. -/
theorem execute_config (env : Env) (words : List String) (config : Config) (tdb2 : TDB2)
    (response : Msg) (h : roundTrip env words config tdb2 = .ok (some response)) :
    (execute env words config tdb2).ctx.config =
      (if response.get "code" = "301" then config.set "taskd.server" (response.get "info")
       else config) ∧
    (response.get "code" ≠ "200" →
      ∃ connection, (execute env words config tdb2).output =
        [OutItem.text (Text.STRING_CMD_SYNC_PROGRESS connection), OutItem.str "\n",
         OutItem.str "\n"]) := by
  obtain ⟨first, settings, server, port, bytes, -, -, hex⟩ :=
    execute_of_response env words config tdb2 response h
  rw [hex]
  simp only [(displayMessages_frame _ _ _).2.2.1, interpret_config, true_and]
  intro hc
  exact ⟨settings.connection, by rw [interpret_out _ _ _ _ _ hc]; rfl⟩

/-- Claim C8.  A run that receives code 301 sets `taskd.server` to the `info`
field of the response and reports the relocation with two errors; it makes no
call other than the round trip and that `config.set`, so that no task is
added or modified, it writes no merge notice to the output, and it leaves the
task database, backlog included, as it was.  A run that receives any other
code, a run whose round trip fails and a run that throws leave the
configuration as it was. -/
theorem execute_relocate (env : Env) (words : List String) (config : Config) (tdb2 : TDB2) :
    (∀ response, roundTrip env words config tdb2 = .ok (some response) →
      response.get "code" = "301" →
      (execute env words config tdb2).ctx.config =
        config.set "taskd.server" (response.get "info") ∧
      (execute env words config tdb2).ctx.config.get "taskd.server" = response.get "info" ∧
      (execute env words config tdb2).ctx.errors =
        [Text.STRING_CMD_SYNC_RELOCATE0,
         Text.indent (Text.STRING_CMD_SYNC_RELOCATE1 (response.get "info"))] ∧
      (∃ t, t.isTransport = true ∧ (execute env words config tdb2).ctx.calls =
        [t, Call.config_set "taskd.server" (response.get "info")]) ∧
      (∃ connection, (execute env words config tdb2).output =
        [OutItem.text (Text.STRING_CMD_SYNC_PROGRESS connection), OutItem.str "\n",
         OutItem.str "\n"]) ∧
      (execute env words config tdb2).ctx.tdb2 = tdb2) ∧
    (∀ response, roundTrip env words config tdb2 = .ok (some response) →
      response.get "code" ≠ "301" → (execute env words config tdb2).ctx.config = config) ∧
    (roundTrip env words config tdb2 = .ok none →
      (execute env words config tdb2).ctx.config = config) ∧
    (∀ e, roundTrip env words config tdb2 = .error e →
      (execute env words config tdb2).ctx.config = config) := by
  refine ⟨?_, ?_, ?_, ?_⟩
  · intro response h hc
    have h200 : response.get "code" ≠ "200" := by rw [hc]; decide
    have h201 : ¬ (response.get "code" = "200" ∨ response.get "code" = "201") := by
      rw [hc]; decide
    obtain ⟨hcfg, hout⟩ := execute_config env words config tdb2 response h
    have hcfg' : (execute env words config tdb2).ctx.config =
        config.set "taskd.server" (response.get "info") := by rw [hcfg, if_pos hc]
    refine ⟨hcfg', ?_, ?_, ?_, hout h200, ?_⟩
    · rw [hcfg', Config.get_set]
    · rw [(execute_status env words config tdb2 response h).2, if_neg h201, if_pos hc]
    · obtain ⟨t, ht, hcalls⟩ := (execute_calls env words config tdb2).2.2.2 response h h200
      exact ⟨t, ht, by rw [hcalls, if_pos hc]⟩
    · exact (execute_tdb2 env words config tdb2 response h).1 h200
  · intro response h hc
    rw [(execute_config env words config tdb2 response h).1, if_neg hc]
  · intro h
    obtain ⟨settings, server, port, bytes, error, -, hex⟩ := execute_of_false env words config tdb2 h
    rw [hex]
  · intro e h
    rw [execute_of_error env words config tdb2 e h]
    rfl

/-- Claim C8 on a run that receives code 301 with `info` = `new:6544` and a
payload that holds a record and a key: the server is changed and nothing is
merged. -/
theorem execute_relocate_witness :
    roundTrip (demoEnv (.ok ⟨[("code", "301"), ("info", "new:6544")], lineA ++ "\nKEY1\n"⟩)) []
      demoConfig demoTDB2 = .ok (some ⟨[("code", "301"), ("info", "new:6544")], lineA ++ "\nKEY1\n"⟩) ∧
    (⟨[("code", "301"), ("info", "new:6544")], lineA ++ "\nKEY1\n"⟩ : Msg).get "code" = "301" ∧
    (execute (demoEnv (.ok ⟨[("code", "301"), ("info", "new:6544")], lineA ++ "\nKEY1\n"⟩)) []
      demoConfig demoTDB2).ctx.config.get "taskd.server" = "new:6544" ∧
    (execute (demoEnv (.ok ⟨[("code", "301"), ("info", "new:6544")], lineA ++ "\nKEY1\n"⟩)) []
      demoConfig demoTDB2).ctx.tdb2 = demoTDB2 :=
  have h := (execute_relocate (demoEnv (.ok ⟨[("code", "301"), ("info", "new:6544")],
    lineA ++ "\nKEY1\n"⟩)) [] demoConfig demoTDB2).1
    ⟨[("code", "301"), ("info", "new:6544")], lineA ++ "\nKEY1\n"⟩ rfl (by decide)
  ⟨rfl, by decide, h.2.1, h.2.2.2.2.2⟩

/-! ## The outgoing payload -/

theorem foldl_pending (cj : Task → String) (tasks : List Task) (acc : Upload) :
    tasks.foldl (fun u i => (⟨u.payload ++ (cj i ++ "\n"), u.upload_count + 1⟩ : Upload)) acc =
      ⟨acc.payload ++ concatLines (tasks.map cj), acc.upload_count + (tasks.length : Int)⟩ := by
  induction tasks generalizing acc with
  | nil => simp [concatLines]
  | cons t ts ih =>
    rw [List.foldl_cons, ih]
    simp only [List.map_cons, concatLines, List.length_cons, String.append_assoc]
    congr 1
    push_cast
    ring

theorem foldl_backlog (lines : List String) (acc : Upload) :
    lines.foldl (fun u i => (⟨u.payload ++ (i ++ "\n"),
        if firstChar i = lbrace then u.upload_count + 1 else u.upload_count⟩ : Upload)) acc =
      ⟨acc.payload ++ concatLines lines,
       acc.upload_count +
        ((lines.filter (fun l => decide (firstChar l = lbrace))).length : Int)⟩ := by
  induction lines generalizing acc with
  | nil => simp [concatLines]
  | cons l ls ih =>
    rw [List.foldl_cons, ih]
    by_cases h : firstChar l = lbrace
    · simp only [h, if_true, concatLines, String.append_assoc, decide_True,
        List.filter_cons_of_pos, List.length_cons]
      congr 1
      push_cast
      ring
    · simp only [h, if_false, concatLines, String.append_assoc, decide_False,
        Bool.false_eq_true, not_false_eq_true, List.filter_cons_of_neg]

/-- The payload step in closed form. -/
theorem buildPayload_eq (env : Env) (first_time_init : Bool) (tdb2 : TDB2) :
    buildPayload env first_time_init tdb2 =
      referencePayload env.composeJSON first_time_init tdb2.pending_get_tasks
        tdb2.backlog.get_lines := by
  cases first_time_init with
  | true =>
    simp only [buildPayload, referencePayload, if_true, foldl_pending, String.empty_append,
      zero_add]
  | false =>
    simp only [buildPayload, referencePayload, Bool.false_eq_true, if_false, foldl_backlog,
      String.empty_append, zero_add]

/-- Claim C9.  The payload loops of `execute` compute the reference
definition: in incremental mode the payload is every backlog line followed
by a newline, in order, and `upload_count` is the number of backlog lines that
begin with `{`; in first-time mode the payload is the JSON of every pending
task followed by a newline, in order, and `upload_count` is the number of
pending tasks. -/
theorem buildPayload_refines (env : Env) (first_time_init : Bool) (tdb2 : TDB2) :
    buildPayload env first_time_init tdb2 =
      referencePayload env.composeJSON first_time_init tdb2.pending_get_tasks
        tdb2.backlog.get_lines ∧
    (buildPayload env false tdb2).payload = concatLines tdb2.backlog.get_lines ∧
    (buildPayload env false tdb2).upload_count =
      ((recordLines tdb2.backlog.get_lines).length : Int) ∧
    (buildPayload env true tdb2).payload =
      concatLines (tdb2.pending_get_tasks.map env.composeJSON) ∧
    (buildPayload env true tdb2).upload_count = (tdb2.pending_get_tasks.length : Int) := by
  refine ⟨buildPayload_eq env first_time_init tdb2, ?_, ?_, ?_, ?_⟩ <;>
    simp [buildPayload_eq, referencePayload, recordLines]

/-- Claim C10.  With `first_time_init` set the payload and `upload_count` are
the same for every two backlogs; with `first_time_init` unset they are the
same for every two task collections; and a run that builds the payload and
then fails at the transport leaves the task database, the pending tasks
included, as it was. -/
theorem buildPayload_independent (env : Env) :
    (∀ (tasks stored stored' : List Task) (backlog backlog' : Backlog),
      buildPayload env true ⟨tasks, stored, backlog⟩ =
        buildPayload env true ⟨tasks, stored', backlog'⟩) ∧
    (∀ (tasks tasks' stored stored' : List Task) (backlog : Backlog),
      buildPayload env false ⟨tasks, stored, backlog⟩ =
        buildPayload env false ⟨tasks', stored', backlog⟩) ∧
    (∀ (words : List String) (config : Config) (tdb2 : TDB2),
      roundTrip env words config tdb2 = .ok none →
      (execute env words config tdb2).ctx.tdb2 = tdb2) := by
  refine ⟨?_, ?_, ?_⟩
  · intro tasks stored stored' backlog backlog'
    simp [buildPayload_eq, referencePayload, TDB2.pending_get_tasks]
  · intro tasks tasks' stored stored' backlog
    simp [buildPayload_eq, referencePayload]
  · intro words config tdb2 h
    obtain ⟨settings, server, port, bytes, error, -, hex⟩ := execute_of_false env words config tdb2 h
    rw [hex]

/-- Claim C10 on a run without `initialize` whose transport is down: the
task database is as before. -/
theorem buildPayload_independent_witness :
    roundTrip downEnv [] demoConfig demoTDB2 = .ok none ∧
    (execute downEnv [] demoConfig demoTDB2).ctx.tdb2 = demoTDB2 :=
  ⟨rfl, (buildPayload_independent downEnv).2.2 [] demoConfig demoTDB2 rfl⟩

/-! ## The endpoint -/

theorem rfindChars_none (c : Char) : ∀ s : List Char, rfindChars c s = none ↔ c ∉ s
  | [] => by simp [rfindChars]
  | x :: xs => by
    have ih := rfindChars_none c xs
    unfold rfindChars
    cases h : rfindChars c xs with
    | some i =>
      have hmem : c ∈ xs := by
        by_contra hc
        rw [ih.2 hc] at h
        cases h
      simp [hmem]
    | none =>
      have hnot : c ∉ xs := ih.1 h
      by_cases hx : x = c
      · simp [hx]
      · have hx' : ¬ c = x := fun h' => hx h'.symm
        simp [hx, hnot, hx']

/-- The index that `rfind` returns is that of the last occurrence: the text
before it, the character and the text after it make up the whole, and the
character does not occur after it. -/
theorem rfindChars_some (c : Char) :
    ∀ (s : List Char) (i : Nat), rfindChars c s = some i →
      s.take i ++ c :: s.drop (i + 1) = s ∧ c ∉ s.drop (i + 1)
  | [], i, h => by simp [rfindChars] at h
  | x :: xs, i, h => by
    unfold rfindChars at h
    cases hr : rfindChars c xs with
    | some j =>
      rw [hr] at h
      simp only [Option.some.injEq] at h
      subst h
      obtain ⟨h1, h2⟩ := rfindChars_some c xs j hr
      simp only [List.take_succ_cons, List.drop_succ_cons, List.cons_append, h1, true_and]
      exact h2
    | none =>
      rw [hr] at h
      by_cases hx : x = c
      · rw [if_pos hx] at h
        simp only [Option.some.injEq] at h
        subst h
        subst hx
        simp only [List.take_zero, List.nil_append, zero_add, List.drop_succ_cons, List.drop_zero,
          true_and]
        exact (rfindChars_none x xs).1 hr
      · rw [if_neg hx] at h
        cases h

/-- The result of `send` when the endpoint holds a colon: no exception, and
the one call to the transport, made with the text before the last colon as
server and the text after it as port. -/
theorem send_of_colon (env : Env) (ctx : Context) (dest certificate : String) (request : Msg)
    (colon : Nat) (h : rfind dest ':' = some colon) :
    ∃ r ctx1, send env ctx dest certificate request = .ok (r, ctx1) ∧
      ctx1.calls = ctx.calls ++
        [Call.tls_client (String.mk (dest.data.take colon))
          (String.mk (dest.data.drop (colon + 1))) certificate
          (env.serialize request ++ "\n")] := by
  unfold send
  rw [h]
  dsimp only
  cases env.tls (String.mk (dest.data.take colon)) (String.mk (dest.data.drop (colon + 1)))
      certificate (env.serialize request ++ "\n") with
  | error e => exact ⟨none, _, rfl, rfl⟩
  | ok incoming =>
    dsimp only
    cases env.parse incoming with
    | error e => exact ⟨none, _, rfl, rfl⟩
    | ok response => exact ⟨some response, _, rfl, rfl⟩

/-- Without a colon in the endpoint `send` throws. -/
theorem send_of_no_colon (env : Env) (ctx : Context) (dest certificate : String)
    (request : Msg) (h : rfind dest ':' = none) :
    send env ctx dest certificate request = .error (Text.STRING_CMD_SYNC_BAD_SERVER dest) := by
  unfold send
  rw [h]

/-- Claim C17.  For an endpoint that holds a colon, `send` does not throw
and calls the transport once, with a server and a port such that server,
colon and port make up the endpoint and the port holds no colon: the split is
at the last colon.  For an endpoint without a colon `send` throws
`STRING_CMD_SYNC_BAD_SERVER` and returns no context, so that no call to the
transport is made. -/
theorem send_splits_endpoint (env : Env) (ctx : Context) (dest certificate : String)
    (request : Msg) :
    (':' ∈ dest.data →
      ∃ server port, server ++ ":" ++ port = dest ∧ ':' ∉ port.data ∧
        ∃ r ctx1, send env ctx dest certificate request = .ok (r, ctx1) ∧
          ctx1.calls = ctx.calls ++
            [Call.tls_client server port certificate (env.serialize request ++ "\n")]) ∧
    (':' ∉ dest.data →
      send env ctx dest certificate request = .error (Text.STRING_CMD_SYNC_BAD_SERVER dest)) := by
  refine ⟨?_, ?_⟩
  · intro hmem
    cases h : rfind dest ':' with
    | none => exact absurd hmem ((rfindChars_none ':' dest.data).1 h)
    | some colon =>
      obtain ⟨h1, h2⟩ := rfindChars_some ':' dest.data colon h
      refine ⟨String.mk (dest.data.take colon), String.mk (dest.data.drop (colon + 1)), ?_, h2,
        send_of_colon env ctx dest certificate request colon h⟩
      apply String.ext
      simpa using h1
  · intro hnot
    have h : rfind dest ':' = none := (rfindChars_none ':' dest.data).2 hnot
    unfold send
    rw [h]

/-- Claim C17 on the endpoint `fe80::1:6544`, whose host holds colons, and on
the endpoint `localhost`, which holds none. -/
theorem send_splits_endpoint_witness :
    ':' ∈ ("fe80::1:6544" : String).data ∧
    rfind "fe80::1:6544" ':' = some 7 ∧
    (∃ server port, server ++ ":" ++ port = "fe80::1:6544" ∧ ':' ∉ port.data ∧
      ∃ r ctx1, send downEnv (Context.start demoConfig demoTDB2) "fe80::1:6544" "cert.pem"
          Msg.empty = .ok (r, ctx1) ∧
        ctx1.calls = (Context.start demoConfig demoTDB2).calls ++
          [Call.tls_client server port "cert.pem" (downEnv.serialize Msg.empty ++ "\n")]) ∧
    ':' ∉ ("localhost" : String).data ∧
    send downEnv (Context.start demoConfig demoTDB2) "localhost" "cert.pem" Msg.empty =
      .error (Text.STRING_CMD_SYNC_BAD_SERVER "localhost") :=
  ⟨by decide, by decide,
   (send_splits_endpoint downEnv (Context.start demoConfig demoTDB2) "fe80::1:6544" "cert.pem"
      Msg.empty).1 (by decide),
   by decide,
   (send_splits_endpoint downEnv (Context.start demoConfig demoTDB2) "localhost" "cert.pem"
      Msg.empty).2 (by decide)⟩

/-! ## Configuration errors -/

theorem rfind_none_iff (s : String) (c : Char) : rfind s c = none ↔ c ∉ s.data :=
  rfindChars_none c s.data

/-- A split has one piece more than the text has delimiters. -/
theorem splitChars_length (d : Char) : ∀ s : List Char, (splitChars d s).length = s.count d + 1
  | [] => by simp [splitChars]
  | c :: cs => by
    have ih := splitChars_length d cs
    unfold splitChars
    by_cases hcd : c = d
    · subst hcd
      simp [ih]
    · rw [if_neg hcd]
      cases hs : splitChars d cs with
      | nil => rw [hs] at ih; simp at ih
      | cons p ps =>
        rw [hs] at ih
        simp only [List.length_cons] at ih ⊢
        rw [List.count_cons_of_ne (fun h' => hcd h'.symm)]
        exact ih

theorem split_length (input : String) (d : Char) (h : input ≠ "") :
    (split input d).length = input.data.count d + 1 := by
  have hdata : input.data ≠ [] := by
    intro h0
    apply h
    exact String.ext h0
  simp [split, hdata, splitChars_length]

/-- The checks of lines 74-92, one after the other. -/
theorem checkConfig_cases (config : Config) :
    ((config.get "taskd.server" = "" ∨ ':' ∉ (config.get "taskd.server").data) →
      checkConfig config = .error Text.STRING_CMD_SYNC_NO_SERVER) ∧
    (¬ (config.get "taskd.server" = "" ∨ ':' ∉ (config.get "taskd.server").data) →
      (config.get "taskd.credentials" = "" ∨
        (split (config.get "taskd.credentials") '/').length ≠ 3) →
      checkConfig config = .error Text.STRING_CMD_SYNC_BAD_CRED) ∧
    (¬ (config.get "taskd.server" = "" ∨ ':' ∉ (config.get "taskd.server").data) →
      ¬ (config.get "taskd.credentials" = "" ∨
        (split (config.get "taskd.credentials") '/').length ≠ 3) →
      config.get "taskd.certificate" = "" →
      checkConfig config = .error Text.STRING_CMD_SYNC_BAD_CERT) ∧
    (¬ (config.get "taskd.server" = "" ∨ ':' ∉ (config.get "taskd.server").data) →
      ¬ (config.get "taskd.credentials" = "" ∨
        (split (config.get "taskd.credentials") '/').length ≠ 3) →
      config.get "taskd.certificate" ≠ "" →
      checkConfig config = .ok ⟨config.get "taskd.server",
        split (config.get "taskd.credentials") '/', config.get "taskd.certificate"⟩) := by
  have hiff : (config.get "taskd.server" = "" ∨ rfind (config.get "taskd.server") ':' = none) ↔
      (config.get "taskd.server" = "" ∨ ':' ∉ (config.get "taskd.server").data) := by
    rw [rfind_none_iff]
  refine ⟨?_, ?_, ?_, ?_⟩
  · intro h
    unfold checkConfig
    dsimp only
    rw [if_pos (hiff.2 h)]
  · intro h hc
    unfold checkConfig
    dsimp only
    rw [if_neg (fun h' => h (hiff.1 h'))]
    by_cases he : config.get "taskd.credentials" = ""
    · rw [if_pos he]
    · rw [if_neg he, if_pos (hc.resolve_left he)]
  · intro h hc hcert
    unfold checkConfig
    dsimp only
    rw [if_neg (fun h' => h (hiff.1 h')), if_neg (fun h' => hc (Or.inl h')),
      if_neg (fun h' => hc (Or.inr h')), if_pos hcert]
  · intro h hc hcert
    unfold checkConfig
    dsimp only
    rw [if_neg (fun h' => h (hiff.1 h')), if_neg (fun h' => hc (Or.inl h')),
      if_neg (fun h' => hc (Or.inr h')), if_neg hcert]

/-- The loop over the command line words throws nothing but
`STRING_CMD_SYNC_NO_INIT`. -/
theorem initWords_error (env : Env) (config : Config) :
    ∀ (words : List String) (b : Bool) (e : Text),
      initWords env config b words = .error e → e = Text.STRING_CMD_SYNC_NO_INIT := by
  intro ws
  induction ws with
  | nil => intro b e1 h1; simp [initWords] at h1
  | cons w ws ih =>
    intro b e1 h1
    unfold initWords at h1
    cases hw : initWord env config b w with
    | error e2 =>
      rw [hw] at h1
      simp only [Except.error.injEq] at h1
      subst h1
      unfold initWord at hw
      split_ifs at hw
      cases hw
      rfl
    | ok b' =>
      rw [hw] at h1
      exact ih b' e1 h1

/-- A run whose configuration fails a check throws, makes no call and leaves
the context as it was; the exception is that of the check when the loop over
the command line words has not thrown its own. -/
theorem execute_of_checkConfig_error (env : Env) (words : List String) (config : Config)
    (tdb2 : TDB2) (e : Text) (h : checkConfig config = .error e) :
    (∃ e', (e' = e ∨ e' = Text.STRING_CMD_SYNC_NO_INIT) ∧
      execute env words config tdb2 = ⟨.error e', [], Context.start config tdb2⟩) ∧
    (∀ first_time_init, initWords env config false words = .ok first_time_init →
      execute env words config tdb2 = ⟨.error e, [], Context.start config tdb2⟩) := by
  cases h1 : initWords env config false words with
  | error e1 =>
    refine ⟨⟨e1, Or.inr (initWords_error env config words false e1 h1), ?_⟩, ?_⟩
    · apply execute_of_error
      simp [roundTrip, h1]
    · intro first hf
      cases hf
  | ok first =>
    have hrt : roundTrip env words config tdb2 = .error e := by
      simp [roundTrip, h1, h]
    refine ⟨⟨e, Or.inl rfl, execute_of_error env words config tdb2 e hrt⟩, ?_⟩
    intro _ _
    exact execute_of_error env words config tdb2 e hrt

/-- The exceptions of a run: that of the loop over the words, that of a
configuration check, or that of `send`. -/
theorem roundTrip_error_cases (env : Env) (words : List String) (config : Config) (tdb2 : TDB2)
    (e : Text) (h : roundTrip env words config tdb2 = .error e) :
    (∃ e', initWords env config false words = .error e') ∨ checkConfig config = .error e ∨
      ∃ dest, e = Text.STRING_CMD_SYNC_BAD_SERVER dest := by
  unfold roundTrip at h
  cases h1 : initWords env config false words with
  | error e1 => exact Or.inl ⟨e1, rfl⟩
  | ok first =>
    simp only [h1] at h
    cases h2 : checkConfig config with
    | error e2 =>
      simp only [h2] at h
      cases h
      exact Or.inr (Or.inl rfl)
    | ok settings =>
      simp only [h2] at h
      right; right
      cases h3 : send env (Context.start config tdb2) settings.connection settings.certificate
          (buildRequest settings.credentials (buildPayload env first tdb2).payload) with
      | error e3 =>
        simp only [h3] at h
        cases h
        unfold send at h3
        split at h3
        · cases h3
          exact ⟨_, rfl⟩
        · dsimp only at h3
          split at h3
          · cases h3
          · split at h3 <;> cases h3
      | ok r =>
        simp only [h3] at h
        cases h

/-- Claim C13, as the code has it.  When the server setting is empty or holds
no colon, or the credentials are empty or do not split at `/` into three
parts, or the certificate setting is empty, the run throws, makes no call (no
request is sent), writes no output and leaves the task database and the
configuration as they were.  When the loop over the command line words has
returned, the exception is that of the first check that fails, in the order
server, credentials, certificate; when that loop has thrown, because the
confirmation of `initialize` was declined, the exception is
`STRING_CMD_SYNC_NO_INIT` whatever the settings, and again no call is made.
When all three settings pass, the checks return the settings and the run
throws none of the three configuration errors.  Non-empty credentials split
into three parts exactly when they hold two `/`. -/
theorem execute_config_errors (env : Env) (words : List String) (config : Config) (tdb2 : TDB2) :
    (((config.get "taskd.server" = "" ∨ ':' ∉ (config.get "taskd.server").data) ∨
      (config.get "taskd.credentials" = "" ∨
        (split (config.get "taskd.credentials") '/').length ≠ 3) ∨
      config.get "taskd.certificate" = "") →
      (∃ e, (execute env words config tdb2).status = .error e) ∧
      (execute env words config tdb2).ctx.calls = [] ∧
      (execute env words config tdb2).output = [] ∧
      (execute env words config tdb2).ctx.tdb2 = tdb2 ∧
      (execute env words config tdb2).ctx.config = config) ∧
    (∀ first_time_init, initWords env config false words = .ok first_time_init →
      ((config.get "taskd.server" = "" ∨ ':' ∉ (config.get "taskd.server").data) →
        (execute env words config tdb2).status = .error Text.STRING_CMD_SYNC_NO_SERVER) ∧
      (¬ (config.get "taskd.server" = "" ∨ ':' ∉ (config.get "taskd.server").data) →
        (config.get "taskd.credentials" = "" ∨
          (split (config.get "taskd.credentials") '/').length ≠ 3) →
        (execute env words config tdb2).status = .error Text.STRING_CMD_SYNC_BAD_CRED) ∧
      (¬ (config.get "taskd.server" = "" ∨ ':' ∉ (config.get "taskd.server").data) →
        ¬ (config.get "taskd.credentials" = "" ∨
          (split (config.get "taskd.credentials") '/').length ≠ 3) →
        config.get "taskd.certificate" = "" →
        (execute env words config tdb2).status = .error Text.STRING_CMD_SYNC_BAD_CERT)) ∧
    (¬ (config.get "taskd.server" = "" ∨ ':' ∉ (config.get "taskd.server").data) →
      ¬ (config.get "taskd.credentials" = "" ∨
        (split (config.get "taskd.credentials") '/').length ≠ 3) →
      config.get "taskd.certificate" ≠ "" →
      checkConfig config = .ok ⟨config.get "taskd.server",
        split (config.get "taskd.credentials") '/', config.get "taskd.certificate"⟩ ∧
      (execute env words config tdb2).status ≠ .error Text.STRING_CMD_SYNC_NO_SERVER ∧
      (execute env words config tdb2).status ≠ .error Text.STRING_CMD_SYNC_BAD_CRED ∧
      (execute env words config tdb2).status ≠ .error Text.STRING_CMD_SYNC_BAD_CERT) ∧
    (config.get "taskd.credentials" ≠ "" →
      ((split (config.get "taskd.credentials") '/').length = 3 ↔
        (config.get "taskd.credentials").data.count '/' = 2)) ∧
    (∀ e, initWords env config false words = .error e →
      (execute env words config tdb2).status = .error Text.STRING_CMD_SYNC_NO_INIT ∧
      (execute env words config tdb2).ctx.calls = [] ∧
      (execute env words config tdb2).ctx.tdb2 = tdb2 ∧
      (execute env words config tdb2).ctx.config = config) := by
  obtain ⟨c1, c2, c3, c4⟩ := checkConfig_cases config
  have herr : ∀ e, checkConfig config = .error e →
      (∃ e, (execute env words config tdb2).status = .error e) ∧
      (execute env words config tdb2).ctx.calls = [] ∧
      (execute env words config tdb2).output = [] ∧
      (execute env words config tdb2).ctx.tdb2 = tdb2 ∧
      (execute env words config tdb2).ctx.config = config := by
    intro e he
    obtain ⟨⟨e', -, hex⟩, -⟩ := execute_of_checkConfig_error env words config tdb2 e he
    rw [hex]
    exact ⟨⟨e', rfl⟩, rfl, rfl, rfl, rfl⟩
  refine ⟨?_, ?_, ?_, ?_, ?_⟩
  · intro h
    by_cases hs : config.get "taskd.server" = "" ∨ ':' ∉ (config.get "taskd.server").data
    · exact herr _ (c1 hs)
    · by_cases hc : config.get "taskd.credentials" = "" ∨
          (split (config.get "taskd.credentials") '/').length ≠ 3
      · exact herr _ (c2 hs hc)
      · rcases h with h | h | h
        · exact absurd h hs
        · exact absurd h hc
        · exact herr _ (c3 hs hc h)
  · intro first hf
    refine ⟨?_, ?_, ?_⟩
    · intro hs
      rw [(execute_of_checkConfig_error env words config tdb2 _ (c1 hs)).2 first hf]
    · intro hs hc
      rw [(execute_of_checkConfig_error env words config tdb2 _ (c2 hs hc)).2 first hf]
    · intro hs hc hcert
      rw [(execute_of_checkConfig_error env words config tdb2 _ (c3 hs hc hcert)).2 first hf]
  · intro hs hc hcert
    have hok := c4 hs hc hcert
    have hno : ∀ e, (execute env words config tdb2).status = .error e →
        e = Text.STRING_CMD_SYNC_NO_INIT ∨ ∃ dest, e = Text.STRING_CMD_SYNC_BAD_SERVER dest := by
      intro e he
      rw [execute_status_cases] at he
      cases hrt : roundTrip env words config tdb2 with
      | error e1 =>
        rw [hrt] at he
        simp only [Except.error.injEq] at he
        subst he
        rcases roundTrip_error_cases env words config tdb2 e1 hrt with ⟨e', h1⟩ | h2 | h3
        · left
          have hrt' : roundTrip env words config tdb2 = .error e' := by
            simp [roundTrip, h1]
          rw [hrt] at hrt'
          simp only [Except.error.injEq] at hrt'
          rw [hrt']
          exact initWords_error env config words false e' h1
        · rw [hok] at h2
          cases h2
        · exact Or.inr h3
      | ok r =>
        rw [hrt] at he
        cases r <;> cases he
    refine ⟨hok, ?_, ?_, ?_⟩ <;>
    · intro he
      rcases hno _ he with h | ⟨dest, h⟩ <;> cases h
  · intro hne
    rw [split_length _ _ hne]
    omega
  · intro e he
    have hrt : roundTrip env words config tdb2 = .error e := by
      simp [roundTrip, he]
    rw [execute_of_error env words config tdb2 e hrt,
      initWords_error env config words false e he]
    exact ⟨rfl, rfl, rfl, rfl⟩

/-- Claim C13 as amended, on the empty configuration, which has no server, and on a
configuration whose credentials have two parts. -/
theorem execute_config_errors_witness :
    Config.get [] "taskd.server" = "" ∧
    initWords (demoEnv (.error "")) [] false [] = .ok false ∧
    (execute (demoEnv (.error "")) [] [] demoTDB2).status =
      .error Text.STRING_CMD_SYNC_NO_SERVER ∧
    (execute (demoEnv (.error "")) [] [] demoTDB2).ctx.calls = [] ∧
    (execute (demoEnv (.error "")) [] [] demoTDB2).ctx.tdb2 = demoTDB2 ∧
    (split (Config.get [("taskd.server", "host:6544"), ("taskd.credentials", "Org/User")]
      "taskd.credentials") '/').length ≠ 3 ∧
    (execute (demoEnv (.error "")) []
      [("taskd.server", "host:6544"), ("taskd.credentials", "Org/User")] demoTDB2).status =
      .error Text.STRING_CMD_SYNC_BAD_CRED :=
  have h := execute_config_errors (demoEnv (.error "")) [] [] demoTDB2
  have h1 := h.1 (Or.inl (Or.inl (by decide)))
  have h2 := execute_config_errors (demoEnv (.error "")) []
    [("taskd.server", "host:6544"), ("taskd.credentials", "Org/User")] demoTDB2
  ⟨by decide, rfl, (h.2.1 false rfl).1 (Or.inl (by decide)), h1.2.1, h1.2.2.2.1, by decide,
   (h2.2.1 false rfl).2.1 (by decide) (Or.inr (by decide))⟩

/-! ## The request that a run sends -/

theorem Call.not_transport_of_merge (c : Call) (h : c.isMerge = true) :
    c.isTransport = false := by
  cases c <;> simp_all [Call.isMerge, Call.isTransport]

/-- The interpretation of a response makes no call to the transport. -/
theorem interpret_transport (env : Env) (ctx : Context) (out : List OutItem)
    (upload_count : Int) (response : Msg) :
    (interpret env ctx out upload_count response).ctx.calls.filter Call.isTransport =
      ctx.calls.filter Call.isTransport := by
  obtain ⟨h200, hother⟩ := interpret_calls env ctx out upload_count response
  by_cases hc : response.get "code" = "200"
  · obtain ⟨merges, hall, -, hcalls⟩ := h200 hc
    rw [hcalls]
    have hm : merges.filter Call.isTransport = [] := by
      rw [List.filter_eq_nil_iff]
      intro c hmem
      simp [Call.not_transport_of_merge c (hall c hmem)]
    simp only [List.filter_append, hm, List.nil_append]
    split_ifs <;> simp [commitCalls, Call.isTransport]
  · rw [hother hc]
    split_ifs <;> simp [Call.isTransport]

/-- A run that reaches the server has passed the loop over the words and the
configuration checks, and its endpoint holds a colon. -/
theorem roundTrip_ok (env : Env) (words : List String) (config : Config) (tdb2 : TDB2)
    (r : Option Msg) (h : roundTrip env words config tdb2 = .ok r) :
    ∃ first_time_init settings colon,
      initWords env config false words = .ok first_time_init ∧
      checkConfig config = .ok settings ∧
      rfind settings.connection ':' = some colon := by
  unfold roundTrip at h
  cases h1 : initWords env config false words with
  | error e1 => simp only [h1] at h; cases h
  | ok first =>
    simp only [h1] at h
    cases h2 : checkConfig config with
    | error e2 => simp only [h2] at h; cases h
    | ok settings =>
      simp only [h2] at h
      cases h3 : rfind settings.connection ':' with
      | none =>
        have hs := (send_of_no_colon env (Context.start config tdb2)
          settings.connection settings.certificate
          (buildRequest settings.credentials (buildPayload env first tdb2).payload) h3)
        rw [hs] at h
        cases h
      | some colon => exact ⟨first, settings, colon, rfl, rfl, h3⟩

/-- The call to the transport of a run that has passed the loop over the
words and the configuration checks: the server and the port cut from the
endpoint, the certificate, and the serialized request that holds the payload
built by the payload loops, followed by a newline. -/
theorem execute_transport_call (env : Env) (words : List String) (config : Config) (tdb2 : TDB2)
    (first_time_init : Bool) (settings : Settings) (colon : Nat)
    (h1 : initWords env config false words = .ok first_time_init)
    (h2 : checkConfig config = .ok settings)
    (h3 : rfind settings.connection ':' = some colon) :
    (execute env words config tdb2).ctx.calls.filter Call.isTransport =
      [Call.tls_client (String.mk (settings.connection.data.take colon))
        (String.mk (settings.connection.data.drop (colon + 1))) settings.certificate
        (env.serialize (buildRequest settings.credentials
          (buildPayload env first_time_init tdb2).payload) ++ "\n")] := by
  obtain ⟨r, ctx1, hsend, hcalls⟩ := send_of_colon env (Context.start config tdb2)
    settings.connection settings.certificate
    (buildRequest settings.credentials (buildPayload env first_time_init tdb2).payload) colon h3
  unfold execute
  simp only [h1, h2]
  simp only [Context.start] at hsend hcalls
  simp only [Context.start, hsend]
  cases r with
  | none =>
    simp only [Context.error, hcalls, List.nil_append]
    rfl
  | some response =>
    simp only [(displayMessages_frame _ _ _).1, interpret_transport, hcalls, List.nil_append]
    rfl

/-! ## Running again after a transport failure -/

/-- The loop over the command line words does not depend on the transport
nor on the codec of the response. -/
theorem initWords_transport (env : Env) (tls' : String → String → String → String → Except String String)
    (parse' : String → Except String Msg) (config : Config) :
    ∀ (words : List String) (b : Bool),
      initWords { env with tls := tls', parse := parse' } config b words =
        initWords env config b words := by
  intro words
  induction words with
  | nil => intro b; rfl
  | cons w ws ih =>
    intro b
    unfold initWords
    have hw : initWord { env with tls := tls', parse := parse' } config b w =
        initWord env config b w := rfl
    rw [hw]
    cases initWord env config b w with
    | error e => rfl
    | ok b' => exact ih b'

/-- Claim C11.  A run that ends in a transport failure leaves the task
database, backlog included, and the configuration as they were, so that the
payload loops give the same payload again; and when the command is run again
from that state, whatever the transport then does, the one call to the
transport is made with the same server, port, certificate and bytes as in
the first run. -/
theorem resync_identical_payload (env : Env)
    (tls' : String → String → String → String → Except String String)
    (parse' : String → Except String Msg)
    (words : List String) (config : Config) (tdb2 : TDB2)
    (h : roundTrip env words config tdb2 = .ok none) :
    (execute env words config tdb2).ctx.tdb2 = tdb2 ∧
    (execute env words config tdb2).ctx.config = config ∧
    (∀ first_time_init,
      buildPayload { env with tls := tls', parse := parse' } first_time_init
        (execute env words config tdb2).ctx.tdb2 = buildPayload env first_time_init tdb2) ∧
    ∃ server port certificate bytes,
      (execute env words config tdb2).ctx.calls.filter Call.isTransport =
        [Call.tls_client server port certificate bytes] ∧
      (execute { env with tls := tls', parse := parse' } words
        (execute env words config tdb2).ctx.config
        (execute env words config tdb2).ctx.tdb2).ctx.calls.filter Call.isTransport =
        [Call.tls_client server port certificate bytes] := by
  obtain ⟨first, settings, colon, h1, h2, h3⟩ := roundTrip_ok env words config tdb2 none h
  obtain ⟨settings', server, port, bytes, error, -, hex⟩ := execute_of_false env words config tdb2 h
  have ht : (execute env words config tdb2).ctx.tdb2 = tdb2 := by rw [hex]
  have hc : (execute env words config tdb2).ctx.config = config := by rw [hex]
  refine ⟨ht, hc, ?_, ?_⟩
  · intro f
    rw [ht]
    rfl
  · refine ⟨_, _, _, _, execute_transport_call env words config tdb2 first settings colon h1 h2 h3,
      ?_⟩
    rw [ht, hc]
    have h1' : initWords { env with tls := tls', parse := parse' } config false words =
        .ok first := by
      rw [initWords_transport, h1]
    exact execute_transport_call { env with tls := tls', parse := parse' } words config tdb2
      first settings colon h1' h2 h3

/-- Claim C11 on a first run whose transport is down and a second run whose
transport answers with code 201: both send the backlog, an earlier key and
one change, in the same bytes. -/
theorem resync_identical_payload_witness :
    roundTrip downEnv [] demoConfig demoTDB2 = .ok none ∧
    (execute downEnv [] demoConfig demoTDB2).ctx.calls.filter Call.isTransport =
      [Call.tls_client "host" "6544" "cert.pem" ("OLDKEY\n" ++ lineB ++ "\n\n")] ∧
    ∃ server port certificate bytes,
      (execute downEnv [] demoConfig demoTDB2).ctx.calls.filter Call.isTransport =
        [Call.tls_client server port certificate bytes] ∧
      (execute { downEnv with tls := fun _ _ _ _ => .ok "incoming",
                              parse := fun _ => .ok (demoResponse "201" "") } []
        (execute downEnv [] demoConfig demoTDB2).ctx.config
        (execute downEnv [] demoConfig demoTDB2).ctx.tdb2).ctx.calls.filter Call.isTransport =
        [Call.tls_client server port certificate bytes] :=
  ⟨rfl, by decide,
   (resync_identical_payload downEnv (fun _ _ _ _ => .ok "incoming")
      (fun _ => .ok (demoResponse "201" "")) [] demoConfig demoTDB2 rfl).2.2.2⟩

/-! ## The footnotes of a run -/

/-- With counts that are not negative the status message is one footnote,
the summary notice of the two counts. -/
theorem statusMessage_footnotes (ctx : Context) (u d : Int) (hu : 0 ≤ u) (hd : 0 ≤ d) :
    (statusMessage ctx u d).footnotes = ctx.footnotes ++ [summaryNotice u d] := by
  unfold statusMessage summaryNotice
  by_cases h1 : u = 0
  · by_cases h2 : d = 0
    · simp [h1, h2, Context.footnote]
    · have h3 : d > 0 := lt_of_le_of_ne hd (fun h => h2 h.symm)
      simp [h1, h2, h3, Context.footnote]
  · have h3 : u > 0 := lt_of_le_of_ne hu (fun h => h1 h.symm)
    by_cases h2 : d = 0
    · simp [h1, h2, h3, Context.footnote]
    · have h4 : d > 0 := lt_of_le_of_ne hd (fun h => h2 h.symm)
      simp [h1, h2, h3, h4, Context.footnote]

theorem buildPayload_upload_count_nonneg (env : Env) (first_time_init : Bool) (tdb2 : TDB2) :
    0 ≤ (buildPayload env first_time_init tdb2).upload_count := by
  rw [buildPayload_eq]
  unfold referencePayload
  split_ifs <;> exact Int.natCast_nonneg _

theorem merge200_download_count (env : Env) (ctx : Context) (out : List OutItem)
    (response : Msg) :
    (merge200 env ctx out response).download_count =
      ((recordLines (split response.getPayload '\n')).length : Int) := by
  simp [merge200, mergeLines_download_count]

theorem displayMessages_footnotes (env : Env) (ctx : Context) (response : Msg) :
    (displayMessages env ctx response).footnotes = ctx.footnotes ++
      (if response.get "messages" ≠ "" ∧ env.verbose "footnote" = true then
        [Text.raw (response.get "messages")] else []) := by
  unfold displayMessages
  dsimp only
  split_ifs <;> simp_all [Context.footnote, Context.debug]

/-- The footnotes that the interpretation of a response emits, for an
`upload_count` that is not negative: the summary notice after a commit, the
no-op notice for code 201, and nothing otherwise. -/
theorem interpret_footnotes (env : Env) (ctx : Context) (out : List OutItem) (upload_count : Int)
    (response : Msg) (hu : 0 ≤ upload_count) :
    (interpret env ctx out upload_count response).ctx.footnotes = ctx.footnotes ++
      (if response.get "code" = "200" then
        (if synchKey response ≠ "" then
          [summaryNotice upload_count
            ((recordLines (split response.getPayload '\n')).length : Int)]
         else [])
       else if response.get "code" = "201" then [Text.STRING_CMD_SYNC_SUCCESS_NOP]
       else []) := by
  by_cases h200 : response.get "code" = "200"
  · simp only [interpret, h200, if_true, code200, merge200_synch_key]
    by_cases hk : synchKey response = ""
    · simp only [hk, ne_eq, not_true_eq_false, if_false, List.append_nil]
      exact (merge200_frame _ _ _ _).2.2.2.1
    · simp only [hk, ne_eq, not_false_eq_true, if_true]
      rw [merge200_download_count,
        statusMessage_footnotes _ _ _ hu (Int.natCast_nonneg _), (commitStep_frame _ _).2.1,
        (merge200_frame _ _ _ _).2.2.2.1]
  · simp only [interpret, h200, if_false]
    split_ifs <;> simp_all [Context.footnote, Context.error, Context.config_set]

/-- The footnotes of a whole run that received a response. -/
theorem execute_footnotes (env : Env) (words : List String) (config : Config) (tdb2 : TDB2)
    (response : Msg) (first_time_init : Bool)
    (h1 : initWords env config false words = .ok first_time_init)
    (h : roundTrip env words config tdb2 = .ok (some response)) :
    (execute env words config tdb2).ctx.footnotes =
      (if response.get "code" = "200" then
        (if synchKey response ≠ "" then
          [summaryNotice (buildPayload env first_time_init tdb2).upload_count
            ((recordLines (split response.getPayload '\n')).length : Int)]
         else [])
       else if response.get "code" = "201" then [Text.STRING_CMD_SYNC_SUCCESS_NOP]
       else []) ++
      (if response.get "messages" ≠ "" ∧ env.verbose "footnote" = true then
        [Text.raw (response.get "messages")] else []) := by
  obtain ⟨first, settings, server, port, bytes, hf, -, hex⟩ :=
    execute_of_response env words config tdb2 response h
  rw [h1] at hf
  simp only [Except.ok.injEq] at hf
  subst hf
  rw [hex]
  simp only [displayMessages_footnotes,
    interpret_footnotes _ _ _ _ _ (buildPayload_upload_count_nonneg env first_time_init tdb2),
    List.nil_append]

/-! ## The summary notice -/

theorem summaryNotice_isSummary (u d : Int) : (summaryNotice u d).isSummary = true := by
  unfold summaryNotice
  split_ifs <;> rfl

/-- The summary notices among the footnotes of a run that commits. -/
theorem execute_summary_filter (env : Env) (words : List String) (config : Config)
    (tdb2 : TDB2) (response : Msg) (first_time_init : Bool)
    (h1 : initWords env config false words = .ok first_time_init)
    (h : roundTrip env words config tdb2 = .ok (some response))
    (hc : response.get "code" = "200") (hk : synchKey response ≠ "") :
    (execute env words config tdb2).ctx.footnotes.filter Text.isSummary =
      [summaryNotice (buildPayload env first_time_init tdb2).upload_count
        ((recordLines (split response.getPayload '\n')).length : Int)] := by
  rw [execute_footnotes env words config tdb2 response first_time_init h1 h]
  simp only [hc, if_true, hk, ne_eq, not_false_eq_true, List.filter_append, List.filter_cons,
    summaryNotice_isSummary, List.filter_nil]
  split_ifs <;> simp [Text.isSummary]

/-- Claim C12.  In a run that performs the commit step, with `upload_count`
the count of the payload loops and `download_count` the number of record lines
received, both counts are at least 0 and exactly one summary notice is among
the footnotes: `SUCCESS0` when both are 0, `SUCCESS1` with `upload_count` when
only `upload_count` is positive, `SUCCESS2` with `download_count` when only
`download_count` is positive, and `SUCCESS3` with both when both are
positive; one of the four cases always holds. -/
theorem execute_summary_notice (env : Env) (words : List String) (config : Config)
    (tdb2 : TDB2) (response : Msg) (first_time_init : Bool)
    (h1 : initWords env config false words = .ok first_time_init)
    (h : roundTrip env words config tdb2 = .ok (some response))
    (hc : response.get "code" = "200") (hk : synchKey response ≠ "") :
    0 ≤ (buildPayload env first_time_init tdb2).upload_count ∧
    (0 : Int) ≤ ((recordLines (split response.getPayload '\n')).length : Int) ∧
    (∃ t, (execute env words config tdb2).ctx.footnotes.filter Text.isSummary = [t]) ∧
    ((buildPayload env first_time_init tdb2).upload_count = 0 ∧
        ((recordLines (split response.getPayload '\n')).length : Int) = 0 →
      (execute env words config tdb2).ctx.footnotes.filter Text.isSummary =
        [Text.STRING_CMD_SYNC_SUCCESS0]) ∧
    ((buildPayload env first_time_init tdb2).upload_count > 0 ∧
        ((recordLines (split response.getPayload '\n')).length : Int) = 0 →
      (execute env words config tdb2).ctx.footnotes.filter Text.isSummary =
        [Text.STRING_CMD_SYNC_SUCCESS1 (buildPayload env first_time_init tdb2).upload_count]) ∧
    ((buildPayload env first_time_init tdb2).upload_count = 0 ∧
        ((recordLines (split response.getPayload '\n')).length : Int) > 0 →
      (execute env words config tdb2).ctx.footnotes.filter Text.isSummary =
        [Text.STRING_CMD_SYNC_SUCCESS2
          ((recordLines (split response.getPayload '\n')).length : Int)]) ∧
    ((buildPayload env first_time_init tdb2).upload_count > 0 ∧
        ((recordLines (split response.getPayload '\n')).length : Int) > 0 →
      (execute env words config tdb2).ctx.footnotes.filter Text.isSummary =
        [Text.STRING_CMD_SYNC_SUCCESS3 (buildPayload env first_time_init tdb2).upload_count
          ((recordLines (split response.getPayload '\n')).length : Int)]) ∧
    (((buildPayload env first_time_init tdb2).upload_count = 0 ∧
        ((recordLines (split response.getPayload '\n')).length : Int) = 0) ∨
      ((buildPayload env first_time_init tdb2).upload_count > 0 ∧
        ((recordLines (split response.getPayload '\n')).length : Int) = 0) ∨
      ((buildPayload env first_time_init tdb2).upload_count = 0 ∧
        ((recordLines (split response.getPayload '\n')).length : Int) > 0) ∨
      ((buildPayload env first_time_init tdb2).upload_count > 0 ∧
        ((recordLines (split response.getPayload '\n')).length : Int) > 0)) := by
  have hu := buildPayload_upload_count_nonneg env first_time_init tdb2
  have hd : (0 : Int) ≤ ((recordLines (split response.getPayload '\n')).length : Int) :=
    Int.natCast_nonneg _
  have hf := execute_summary_filter env words config tdb2 response first_time_init h1 h hc hk
  generalize (buildPayload env first_time_init tdb2).upload_count = u at hu hf ⊢
  generalize ((recordLines (split response.getPayload '\n')).length : Int) = d at hd hf ⊢
  refine ⟨hu, hd, ⟨_, hf⟩, ?_, ?_, ?_, ?_, ?_⟩
  · rintro ⟨hu0, hd0⟩
    rw [hf]
    simp [summaryNotice, hu0, hd0]
  · rintro ⟨hu0, hd0⟩
    rw [hf]
    simp [summaryNotice, ne_of_gt hu0, hd0]
  · rintro ⟨hu0, hd0⟩
    rw [hf]
    simp [summaryNotice, hu0, ne_of_gt hd0]
  · rintro ⟨hu0, hd0⟩
    rw [hf]
    simp [summaryNotice, ne_of_gt hu0, ne_of_gt hd0]
  · omega

/-- Claim C12 on a run that sends one change and receives two records and
the key `KEY1`. -/
theorem execute_summary_notice_witness :
    initWords (demoEnv (.ok (demoResponse "200" (lineA ++ "\n" ++ lineB ++ "\nKEY1\n")))) demoConfig
      false [] = .ok false ∧
    roundTrip (demoEnv (.ok (demoResponse "200" (lineA ++ "\n" ++ lineB ++ "\nKEY1\n")))) []
      demoConfig demoTDB2 = .ok (some (demoResponse "200" (lineA ++ "\n" ++ lineB ++ "\nKEY1\n"))) ∧
    (demoResponse "200" (lineA ++ "\n" ++ lineB ++ "\nKEY1\n")).get "code" = "200" ∧
    synchKey (demoResponse "200" (lineA ++ "\n" ++ lineB ++ "\nKEY1\n")) ≠ "" ∧
    (execute (demoEnv (.ok (demoResponse "200" (lineA ++ "\n" ++ lineB ++ "\nKEY1\n")))) []
      demoConfig demoTDB2).ctx.footnotes.filter Text.isSummary =
      [Text.STRING_CMD_SYNC_SUCCESS3 1 2] :=
  ⟨rfl, rfl, by decide, by decide,
   (execute_summary_notice (demoEnv (.ok (demoResponse "200" (lineA ++ "\n" ++ lineB ++ "\nKEY1\n"))))
      [] demoConfig demoTDB2 (demoResponse "200" (lineA ++ "\n" ++ lineB ++ "\nKEY1\n")) false rfl rfl
      (by decide) (by decide)).2.2.2.2.2.2.1 ⟨by decide, by decide⟩⟩

/-! ## The server messages -/

theorem interpret_debugs (env : Env) (ctx : Context) (out : List OutItem)
    (upload_count : Int) (response : Msg) :
    (interpret env ctx out upload_count response).ctx.debugs =
      ctx.debugs ++ outcomeDebugs response := by
  by_cases hc : response.get "code" = "200"
  · rw [interpret_debugs_200 _ _ _ _ _ hc]
    simp [outcomeDebugs, hc]
  · simp only [interpret, hc, if_false, outcomeDebugs]
    split_ifs <;> simp [Context.footnote, Context.error, Context.config_set]

/-- Claim C14.  In every run that receives a response, whatever its code,
the footnotes are those of the outcome and the debug texts are those of the
outcome, followed by the text of the `messages` field once: among the
footnotes when the field is not empty and the `footnote` verbosity is on,
among the debug texts when the field is not empty and the verbosity is off,
and nowhere when the field is empty. -/
theorem execute_messages (env : Env) (words : List String) (config : Config) (tdb2 : TDB2)
    (response : Msg) (first_time_init : Bool)
    (h1 : initWords env config false words = .ok first_time_init)
    (h : roundTrip env words config tdb2 = .ok (some response)) :
    (response.get "messages" ≠ "" → env.verbose "footnote" = true →
      (execute env words config tdb2).ctx.footnotes =
        outcomeFootnotes (buildPayload env first_time_init tdb2).upload_count response ++
          [Text.raw (response.get "messages")] ∧
      (execute env words config tdb2).ctx.debugs = outcomeDebugs response) ∧
    (response.get "messages" ≠ "" → env.verbose "footnote" = false →
      (execute env words config tdb2).ctx.footnotes =
        outcomeFootnotes (buildPayload env first_time_init tdb2).upload_count response ∧
      (execute env words config tdb2).ctx.debugs =
        outcomeDebugs response ++ [Text.raw (response.get "messages")]) ∧
    (response.get "messages" = "" →
      (execute env words config tdb2).ctx.footnotes =
        outcomeFootnotes (buildPayload env first_time_init tdb2).upload_count response ∧
      (execute env words config tdb2).ctx.debugs = outcomeDebugs response) := by
  have hf := execute_footnotes env words config tdb2 response first_time_init h1 h
  have hd : (execute env words config tdb2).ctx.debugs = outcomeDebugs response ++
      (if response.get "messages" ≠ "" ∧ env.verbose "footnote" = false then
        [Text.raw (response.get "messages")] else []) := by
    obtain ⟨first, settings, server, port, bytes, -, -, hex⟩ :=
      execute_of_response env words config tdb2 response h
    rw [hex]
    simp only [displayMessages_debugs, interpret_debugs, List.nil_append]
  refine ⟨?_, ?_, ?_⟩
  · intro hm hv
    rw [hf, hd]
    simp [outcomeFootnotes, hm, hv]
  · intro hm hv
    rw [hf, hd]
    simp [outcomeFootnotes, hm, hv]
  · intro hm
    rw [hf, hd]
    simp [outcomeFootnotes, hm]

/-- Claim C14 on a run that receives code 430 with a message, the `footnote`
verbosity being on. -/
theorem execute_messages_witness :
    initWords (demoEnv (.ok ⟨[("code", "430"), ("messages", "Account suspended")], ""⟩))
      demoConfig false [] = .ok false ∧
    roundTrip (demoEnv (.ok ⟨[("code", "430"), ("messages", "Account suspended")], ""⟩)) []
      demoConfig demoTDB2 = .ok (some ⟨[("code", "430"), ("messages", "Account suspended")], ""⟩) ∧
    (execute (demoEnv (.ok ⟨[("code", "430"), ("messages", "Account suspended")], ""⟩)) []
      demoConfig demoTDB2).ctx.footnotes = [Text.raw "Account suspended"] ∧
    (execute (demoEnv (.ok ⟨[("code", "430"), ("messages", "Account suspended")], ""⟩)) []
      demoConfig demoTDB2).ctx.debugs = [] :=
  ⟨rfl, rfl,
   (execute_messages (demoEnv (.ok ⟨[("code", "430"), ("messages", "Account suspended")], ""⟩)) []
      demoConfig demoTDB2 ⟨[("code", "430"), ("messages", "Account suspended")], ""⟩ false rfl
      rfl).1 (by decide) rfl⟩

/-! ## Additions and updates in one merge pass -/

/-- Among merge calls every call is an addition or an update, never both. -/
theorem merges_add_modify (l : List Call) (h : ∀ c ∈ l, c.isMerge = true) :
    (l.filter Call.isAdd).length + (l.filter Call.isModify).length = l.length := by
  induction l with
  | nil => rfl
  | cons c cs ih =>
    have hc := h c (List.mem_cons_self _ _)
    have ih' := ih (fun x hx => h x (List.mem_cons_of_mem _ hx))
    cases c <;> simp_all [Call.isMerge, Call.isAdd, Call.isModify] <;> omega

/-- The call that the loop makes for a record line: `tdb2.modify` when the
store holds the uuid as the line is reached, `tdb2.add` otherwise. -/
theorem mergeLines_call_at (env : Env) (cA cC : String) (m : Merge) (pre : List String)
    (line : String) (post : List String) (hrec : firstChar line = lbrace) :
    (mergeLines env cA cC m (pre ++ line :: post)).ctx.calls[m.ctx.calls.length +
        (recordLines pre).length]? =
      some (if (mergeLines env cA cC m pre).ctx.tdb2.get ((env.parseTask line).get "uuid") = true
        then Call.tdb2_modify (env.parseTask line) false
        else Call.tdb2_add (env.parseTask line) false) := by
  obtain ⟨cs, hcs, hlen, -⟩ := mergeLines_calls env cA cC m pre
  obtain ⟨cs2, hcs2, -, -⟩ := mergeLines_calls env cA cC
    (mergeLine env cA cC (mergeLines env cA cC m pre) line) post
  rw [mergeLines_append, mergeLines_cons, hcs2]
  cases hk : (mergeLines env cA cC m pre).ctx.tdb2.get ((env.parseTask line).get "uuid")
  · rw [mergeLine_new env cA cC _ line hrec hk]
    simp only [Context.tdb2_add, hcs, List.append_assoc, Bool.false_eq_true, if_false]
    exact getElem?_mid m.ctx.calls cs cs2 _ _ hlen.symm
  · rw [mergeLine_known env cA cC _ line hrec hk]
    simp only [Context.tdb2_modify, hcs, List.append_assoc, if_true]
    exact getElem?_mid m.ctx.calls cs cs2 _ _ hlen.symm

/-- The loop adds a uuid at most once, and never a uuid that the store
holds already. -/
theorem mergeLines_add_once (env : Env) (cA cC : String) (u : String) (lines : List String) :
    ∀ m : Merge, ∃ cs, (mergeLines env cA cC m lines).ctx.calls = m.ctx.calls ++ cs ∧
      (cs.filter (Call.addsUuid u)).length ≤ 1 ∧
      (m.ctx.tdb2.get u = true → (cs.filter (Call.addsUuid u)).length = 0) := by
  induction lines with
  | nil => intro m; exact ⟨[], by simp [mergeLines_nil], by simp, by simp⟩
  | cons line lines ih =>
    intro m
    rw [mergeLines_cons]
    obtain ⟨cs, hcs, hle, hzero⟩ := ih (mergeLine env cA cC m line)
    by_cases hrec : firstChar line = lbrace
    · cases hk : m.ctx.tdb2.get ((env.parseTask line).get "uuid")
      · have hstep := mergeLine_new env cA cC m line hrec hk
        have hcalls : (mergeLine env cA cC m line).ctx.calls =
            m.ctx.calls ++ [Call.tdb2_add (env.parseTask line) false] := by
          rw [hstep]; rfl
        have hget : (mergeLine env cA cC m line).ctx.tdb2.get u =
            (m.ctx.tdb2.get u || ((env.parseTask line).get "uuid" == u)) := by
          rw [hstep]; simp [Context.tdb2_add, TDB2.get_add]
        rw [hget] at hzero
        simp only [Bool.or_eq_true, beq_iff_eq] at hzero
        refine ⟨Call.tdb2_add (env.parseTask line) false :: cs, ?_, ?_, ?_⟩
        · rw [hcs, hcalls]; simp
        · by_cases hu : (env.parseTask line).get "uuid" = u
          · have h0 := hzero (Or.inr hu)
            simp [Call.addsUuid, hu, h0]
          · simp only [Call.addsUuid, beq_iff_eq, hu, not_false_eq_true,
              List.filter_cons_of_neg]
            exact hle
        · intro hg
          have hu : ¬ (env.parseTask line).get "uuid" = u := by
            intro hu
            rw [hu, hg] at hk
            cases hk
          simp only [Call.addsUuid, beq_iff_eq, hu, not_false_eq_true, List.filter_cons_of_neg]
          exact hzero (Or.inl hg)
      · have hstep := mergeLine_known env cA cC m line hrec hk
        have hcalls : (mergeLine env cA cC m line).ctx.calls =
            m.ctx.calls ++ [Call.tdb2_modify (env.parseTask line) false] := by
          rw [hstep]; rfl
        have hget : (mergeLine env cA cC m line).ctx.tdb2.get u = m.ctx.tdb2.get u := by
          rw [hstep]; simp [Context.tdb2_modify, TDB2.get_modify]
        rw [hget] at hzero
        refine ⟨Call.tdb2_modify (env.parseTask line) false :: cs, ?_, ?_, ?_⟩
        · rw [hcs, hcalls]; simp
        · simpa [Call.addsUuid] using hle
        · intro hg
          simpa [Call.addsUuid] using hzero hg
    · rcases mergeLine_step env cA cC m line with ⟨h, -⟩ | ⟨-, -, hc, -, ht, -⟩
      · exact absurd h hrec
      · rw [hc] at hcs
        rw [ht] at hzero
        exact ⟨cs, hcs, hle, hzero⟩

/-- Claim C15.  The calls of one merge pass for a code 200 response are
additions and updates whose numbers add up to `download_count`; no uuid is
added more than once; a record line whose uuid neither the store before the
pass nor an earlier record line holds is applied by `tdb2.add`, and a record
line whose uuid an earlier record line of the payload holds is applied by
`tdb2.modify`. -/
theorem merge200_add_once (env : Env) (ctx : Context) (out : List OutItem) (response : Msg) :
    ∃ merges, (merge200 env ctx out response).ctx.calls = ctx.calls ++ merges ∧
      (((merges.filter Call.isAdd).length + (merges.filter Call.isModify).length : Nat) : Int) =
        (merge200 env ctx out response).download_count ∧
      (∀ u, (merges.filter (Call.addsUuid u)).length ≤ 1) ∧
      ∀ pre line post, split response.getPayload '\n' = pre ++ line :: post →
        firstChar line = lbrace →
        (ctx.tdb2.get ((env.parseTask line).get "uuid") = false →
          (∀ l ∈ pre, firstChar l = lbrace →
            (env.parseTask l).get "uuid" ≠ (env.parseTask line).get "uuid") →
          merges[(recordLines pre).length]? = some (Call.tdb2_add (env.parseTask line) false)) ∧
        ((∃ l ∈ pre, firstChar l = lbrace ∧
            (env.parseTask l).get "uuid" = (env.parseTask line).get "uuid") →
          merges[(recordLines pre).length]? =
            some (Call.tdb2_modify (env.parseTask line) false)) := by
  obtain ⟨merges, hm, hlen, hall⟩ := merge200_calls env ctx out response
  refine ⟨merges, hm, ?_, ?_, ?_⟩
  · rw [merges_add_modify merges hall, merge200_download_count, hlen]
  · intro u
    obtain ⟨cs, hcs, hle, -⟩ := mergeLines_add_once env (ctx.config.get "color.sync.added")
      (ctx.config.get "color.sync.changed") u (split response.getPayload '\n') ⟨ctx, out, 0, ""⟩
    have heq : cs = merges := by
      have h1 : ctx.calls ++ cs = ctx.calls ++ merges := by
        rw [← hm]
        exact hcs.symm
      exact List.append_cancel_left h1
    rw [← heq]
    exact hle
  · intro pre line post hsplit hrec
    have hat := mergeLines_call_at env (ctx.config.get "color.sync.added")
      (ctx.config.get "color.sync.changed") ⟨ctx, out, 0, ""⟩ pre line post hrec
    have hcalls : (mergeLines env (ctx.config.get "color.sync.added")
        (ctx.config.get "color.sync.changed") ⟨ctx, out, 0, ""⟩ (pre ++ line :: post)).ctx.calls =
        ctx.calls ++ merges := by
      rw [← hsplit]
      exact hm
    rw [hcalls, List.getElem?_append_right (by simp)] at hat
    simp only [add_tsub_cancel_left] at hat
    have hget := mergeLines_get env (ctx.config.get "color.sync.added")
      (ctx.config.get "color.sync.changed") ⟨ctx, out, 0, ""⟩ pre ((env.parseTask line).get "uuid")
    refine ⟨?_, ?_⟩
    · intro hstore hfresh
      have hno : ¬ ((mergeLines env (ctx.config.get "color.sync.added")
          (ctx.config.get "color.sync.changed") ⟨ctx, out, 0, ""⟩ pre).ctx.tdb2.get
          ((env.parseTask line).get "uuid") = true) := by
        rw [hget]
        rintro (h | ⟨l, hl, hr, hu⟩)
        · rw [hstore] at h
          cases h
        · exact hfresh l hl hr hu
      rw [hat, if_neg hno]
    · intro hearlier
      have hyes : (mergeLines env (ctx.config.get "color.sync.added")
          (ctx.config.get "color.sync.changed") ⟨ctx, out, 0, ""⟩ pre).ctx.tdb2.get
          ((env.parseTask line).get "uuid") = true := hget.2 (Or.inr hearlier)
      rw [hat, if_pos hyes]

/-- Claim C15 on the payload that holds the record `A` twice and the key
`KEY1`, `A` not being in the store: the calls are one addition and then one
update. -/
theorem merge200_add_once_witness :
    split (demoResponse "200" (lineA ++ "\n" ++ lineA ++ "\nKEY1\n")).getPayload '\n' =
      [lineA] ++ lineA :: ["KEY1", ""] ∧
    firstChar lineA = lbrace ∧
    demoTDB2.get "A" = false ∧
    (merge200 (demoEnv (.error "")) (Context.start demoConfig demoTDB2) []
      (demoResponse "200" (lineA ++ "\n" ++ lineA ++ "\nKEY1\n"))).ctx.calls =
      [Call.tdb2_add (demoTask "A" "buy milk") false,
       Call.tdb2_modify (demoTask "A" "buy milk") false] ∧
    ∃ merges,
      (merge200 (demoEnv (.error "")) (Context.start demoConfig demoTDB2) []
        (demoResponse "200" (lineA ++ "\n" ++ lineA ++ "\nKEY1\n"))).ctx.calls =
        (Context.start demoConfig demoTDB2).calls ++ merges ∧
      merges[1]? = some (Call.tdb2_modify (demoTask "A" "buy milk") false) :=
  ⟨by decide, by decide, by decide, by decide,
   (merge200_add_once (demoEnv (.error "")) (Context.start demoConfig demoTDB2) []
      (demoResponse "200" (lineA ++ "\n" ++ lineA ++ "\nKEY1\n"))).elim
     (fun merges h => ⟨merges, h.1,
       (h.2.2.2 [lineA] lineA ["KEY1", ""] (by decide) (by decide)).2
         ⟨lineA, by simp, by decide, rfl⟩⟩)⟩

/-! ## The synch key in the backlog -/

theorem linesOfChars_line (k : List Char) (h : '\n' ∉ k) : linesOfChars (k ++ ['\n']) = [k] := by
  induction k with
  | nil => simp [linesOfChars]
  | cons c cs ih =>
    have hc : c ≠ '\n' := fun hc => h (by simp [hc])
    have hcs : '\n' ∉ cs := fun hm => h (List.mem_cons_of_mem _ hm)
    have ih' := ih hcs
    rw [List.cons_append]
    unfold linesOfChars
    rw [if_neg hc, ih']

theorem fileLines_line (key : String) (h : '\n' ∉ key.data) : fileLines (key ++ "\n") = [key] := by
  have hd : (key ++ "\n").data = key.data ++ ['\n'] := by simp
  simp only [fileLines, hd, linesOfChars_line key.data h, List.map_cons, List.map_nil]

theorem keyLines_not_record (lines : List String) : ∀ l ∈ keyLines lines, firstChar l ≠ lbrace := by
  intro l hl
  simp only [keyLines, List.mem_filter, decide_eq_true_eq] at hl
  exact hl.2.1

/-- A synch key does not begin with `{`. -/
theorem synchKey_not_record (response : Msg) : firstChar (synchKey response) ≠ lbrace := by
  by_cases h : keyLines (split response.getPayload '\n') = []
  · simp only [synchKey, h, List.getLastD_nil]
    decide
  · exact getLastD_of_forall (fun l => firstChar l ≠ lbrace) _ "" h (keyLines_not_record _)

/-- The first character of a text that is not empty stays the first when
something is appended. -/
theorem firstChar_append (s t : String) (h : s ≠ "") : firstChar (s ++ t) = firstChar s := by
  have hd : s.data ≠ [] := fun h0 => h (String.ext h0)
  unfold firstChar
  cases hs : s.data with
  | nil => exact absurd hs hd
  | cons c cs => simp [hs]

/-- Claim C16.  Every line that a run stores in the backlog is a synch key
followed by a newline, and that key is not empty and does not begin with `{`.
After a run that performs the commit step, the next incremental run, whether
it loads the backlog from its backing storage or finds the lines left in
memory, counts no upload; loaded from the backing storage, its payload is
the key line alone. -/
theorem committed_key (env : Env) (words : List String) (config : Config) (tdb2 : TDB2) :
    (∀ line, Call.backlog_add_line line ∈ (execute env words config tdb2).ctx.calls →
      ∃ key, line = key ++ "\n" ∧ key ≠ "" ∧ firstChar key ≠ lbrace) ∧
    (∀ response, roundTrip env words config tdb2 = .ok (some response) →
      response.get "code" = "200" → synchKey response ≠ "" →
      firstChar (synchKey response) ≠ lbrace ∧
      Call.backlog_add_line (synchKey response ++ "\n") ∈
        (execute env words config tdb2).ctx.calls ∧
      ∀ env' : Env,
        buildPayload env' false (execute env words config tdb2).ctx.tdb2.reload =
          ⟨synchKey response ++ "\n", 0⟩ ∧
        buildPayload env' false (execute env words config tdb2).ctx.tdb2 =
          ⟨(synchKey response ++ "\n") ++ "\n", 0⟩) := by
  have hf := execute_commit_calls env words config tdb2
  have hmem : ∀ line, (Call.backlog_add_line line ∈ (execute env words config tdb2).ctx.calls ↔
      Call.backlog_add_line line ∈
        (execute env words config tdb2).ctx.calls.filter Call.isCommitStep) := by
    intro line
    simp [List.mem_filter, Call.isCommitStep]
  refine ⟨?_, ?_⟩
  · intro line hl
    rw [hmem, hf] at hl
    cases hrt : roundTrip env words config tdb2 with
    | error e => rw [hrt] at hl; simp at hl
    | ok r =>
      cases r with
      | none => rw [hrt] at hl; simp at hl
      | some response =>
        rw [hrt] at hl
        dsimp only at hl
        by_cases hc : response.get "code" = "200" ∧ synchKey response ≠ ""
        · rw [if_pos hc] at hl
          simp only [commitCalls, List.mem_cons, Call.backlog_add_line.injEq, List.mem_singleton,
            List.not_mem_nil, or_false, reduceCtorEq, false_or] at hl
          exact ⟨synchKey response, hl, hc.2, synchKey_not_record response⟩
        · rw [if_neg hc] at hl
          simp at hl
  · intro response h hc hk
    have hnr := synchKey_not_record response
    refine ⟨hnr, ?_, ?_⟩
    · rw [hmem, hf, h]
      simp [hc, hk, commitCalls]
    · intro env'
      obtain ⟨hb, -⟩ := (execute_tdb2 env words config tdb2 response h).2.2 hc hk
      have hnr2 : firstChar (synchKey response ++ "\n") ≠ lbrace := by
        rw [firstChar_append _ _ hk]
        exact hnr
      refine ⟨?_, ?_⟩
      · rw [buildPayload_eq]
        simp only [referencePayload, Bool.false_eq_true, if_false, TDB2.reload, hb,
          Backlog.get_lines, fileLines_line _ (synchKey_no_newline response), concatLines]
        simp [hnr]
      · rw [buildPayload_eq]
        simp only [referencePayload, Bool.false_eq_true, if_false, hb, Backlog.get_lines,
          concatLines]
        simp [hnr2]

/-- Claim C16 on a run that commits the key `KEY1`: the next incremental
run, loaded from the backing storage, sends the key line alone and counts no
upload. -/
theorem committed_key_witness :
    roundTrip (demoEnv (.ok (demoResponse "200" (lineA ++ "\n" ++ lineB ++ "\nKEY1\n")))) []
      demoConfig demoTDB2 = .ok (some (demoResponse "200" (lineA ++ "\n" ++ lineB ++ "\nKEY1\n"))) ∧
    (demoResponse "200" (lineA ++ "\n" ++ lineB ++ "\nKEY1\n")).get "code" = "200" ∧
    synchKey (demoResponse "200" (lineA ++ "\n" ++ lineB ++ "\nKEY1\n")) ≠ "" ∧
    buildPayload downEnv false
      (execute (demoEnv (.ok (demoResponse "200" (lineA ++ "\n" ++ lineB ++ "\nKEY1\n")))) []
        demoConfig demoTDB2).ctx.tdb2.reload = ⟨"KEY1\n", 0⟩ :=
  ⟨rfl, by decide, by decide,
   ((committed_key (demoEnv (.ok (demoResponse "200" (lineA ++ "\n" ++ lineB ++ "\nKEY1\n")))) []
      demoConfig demoTDB2).2 (demoResponse "200" (lineA ++ "\n" ++ lineB ++ "\nKEY1\n")) rfl
      (by decide) (by decide)).2.2 downEnv |>.1⟩

/-! ## A declined confirmation comes first -/

/-- Claim C13 as stated fails: with the word `initialize`, the confirmation
setting on, a user who declines and no server setting, the run throws
`STRING_CMD_SYNC_NO_INIT` and not `STRING_CMD_SYNC_NO_SERVER`; no call is
made. -/
theorem execute_declined_before_checks :
    Config.get [("confirmation", "yes")] "taskd.server" = "" ∧
    initWords declineEnv [("confirmation", "yes")] false ["initialize"] =
      .error Text.STRING_CMD_SYNC_NO_INIT ∧
    (execute declineEnv ["initialize"] [("confirmation", "yes")] demoTDB2).status =
      .error Text.STRING_CMD_SYNC_NO_INIT ∧
    (execute declineEnv ["initialize"] [("confirmation", "yes")] demoTDB2).status ≠
      .error Text.STRING_CMD_SYNC_NO_SERVER ∧
    (execute declineEnv ["initialize"] [("confirmation", "yes")] demoTDB2).ctx.calls = [] := by
  refine ⟨by decide, rfl, rfl, ?_, by decide⟩
  intro h
  change (Except.error Text.STRING_CMD_SYNC_NO_INIT : Except Text Int) = _ at h
  cases h

end CmdSync
